import Mathlib

/-!
Verification development for the `vcblobstore` repository: a versioned blob
store with a local git-working-directory backend (`git/local`) and a remote
GitLab backend (`git/gitlab`), sharing a commit-metadata model (`git`).

The Go sources are shallowly embedded below.  Pure functions become Lean
functions; the stateful local backend becomes explicit state passing over a
`LocalGitState` record together with a trace of the git subprocess commands it
issues; fallible code returns `Option`/`Except` or an `Option GoErr`
error-result component.  Go `error` values are modelled by the inductive
`GoErr`, which keeps the wrapping structure produced by `fmt.Errorf` with the
`%w` verb.  Byte strings are `List Nat` (each entry a byte value), and text is
handled as `List Char` in the parsers (Go strings are UTF-8 text; the parsers
in scope operate rune-wise).
-/

namespace Vcblobstore

/-- Model of a Go `error` value.  `sentinel` stands for a package-level
`errors.New` value (identity matters, as Go compares such values by pointer);
`pathError` stands for `*fs.PathError` as returned by `os` file operations,
carrying the operation, the path and the underlying errno name; `wrapped` is
`fmt.Errorf("...: %w", inner)`; `msgError` is `fmt.Errorf`/`errors.New`
without wrapping; `timeParseError` is the `*time.ParseError` produced by
`time.Parse`, carrying the input that failed to parse. -/
inductive GoErr where
  | sentinel (name : String)
  | pathError (op : String) (path : String) (errno : String)
  | msgError (msg : String)
  | timeParseError (input : List Char)
  | wrapped (msg : String) (inner : GoErr)
  deriving DecidableEq, Repr

/-- Go `errors.Is` restricted to the unwrap chain produced by `fmt.Errorf`
with `%w` (the only wrapping the embedded code builds): true iff the target
appears in the chain of wrapped errors. -/
def goErrWraps : GoErr → GoErr → Bool
  | e, target =>
    e == target ||
      match e with
      | .wrapped _ inner => goErrWraps inner target
      | _ => false

/-- Modelled from the spec: the blob-not-found sentinel error
`vcblobstore.ErrBlobNotFound` of the repository root package, whose source
file is not under `src/` (only its users are).  The spec calls it the
NotFound-class error for content operations. -/
def errBlobNotFound : GoErr := GoErr.sentinel "ErrBlobNotFound"

/-- The `os.ErrNotExist` sentinel of the Go standard library
(`fs.ErrNotExist`), an `errors.New` value distinct from any `*fs.PathError`. -/
def osErrNotExist : GoErr := GoErr.sentinel "file does not exist"

/-- Go `strings.Contains` on rune lists: the needle occurs as a contiguous
substring of the haystack. -/
def containsSub (hay needle : List Char) : Bool :=
  needle.isPrefixOf hay ||
    (match hay with
     | [] => false
     | _ :: t => containsSub t needle)

/-- `strings.Contains` on `String`s (via their character data). -/
def strContains (hay needle : String) : Bool :=
  containsSub hay.data needle.data

/- ----------------------------------------------------------------------
Local backend state model (src/unnamed/part_000, a file of package
`git/local`, plus the command runner of src/unnamed/part_002).

The working directory and the git repository in it are modelled as three
finite maps from file path to byte content: the committed tree at HEAD, the
index (staging area) and the working tree.  `ExecuteGitCommand` invocations
are recorded in a trace of `GitCmd` events; each embedded git subcommand is a
function on `LocalGitState`.  Failure modes of the environment that the
claims quantify over are injected through the two fault flags:
`addFault` makes the `git add -A` subprocess fail, and `syncFault` makes the
`out.Sync()` flush inside `copyBlobContents` fail after the destination bytes
were written (an fsync error, possible in POSIX after a successful write).
`simulateCommitFailure` is the `GIT_COMMIT_FAIL_INTRUSIVE_TEST=true`
environment toggle, which swaps the commit verb for the deliberately
unrecognized command `procyon lotor` (src/git/commit.go lines 10-13,
src/unnamed/part_000 lines 57-63).
---------------------------------------------------------------------- -/

/-- Byte-string content of a blob: a list of byte values. -/
abbrev Bytes := List Nat

/-- A file tree: an association list from file path to content. -/
abbrev FileTree := List (String × Bytes)

/-- Association-list lookup. -/
def alLookup (path : String) : FileTree → Option Bytes
  | [] => none
  | (p, c) :: rest => if p == path then some c else alLookup path rest

/-- Association-list insert-or-replace (file write). -/
def alInsert (path : String) (content : Bytes) : FileTree → FileTree
  | [] => [(path, content)]
  | (p, c) :: rest =>
    if p == path then (p, content) :: rest else (p, c) :: alInsert path content rest

/-- Association-list removal (file delete). -/
def alRemove (path : String) : FileTree → FileTree
  | [] => []
  | (p, c) :: rest => if p == path then alRemove path rest else (p, c) :: alRemove path rest

/-- State of one local repository working directory. -/
structure LocalGitState where
  committed : FileTree
  index : FileTree
  workTree : FileTree
  simulateCommitFailure : Bool
  addFault : Bool
  syncFault : Bool
  deriving DecidableEq, Repr

/-- One git subprocess invocation issued through `ExecuteGitCommand`
(src/unnamed/part_000 lines 44-50): the argument vectors the local backend
uses, as listed in the source. -/
inductive GitCmd where
  | addAll
  | commitCmd
  | resetHard
  | clean
  | statusCmd
  | logLast (path : String)
  deriving DecidableEq, Repr

/-- The fixed message tail git prints for a clean tree
(src/unnamed/part_000 line 17). -/
def cleanStatusMessageTail : String := "nothing to commit, working tree clean"

/-- `git add -A`: stage the whole working tree, unless the injected
subprocess fault fires. -/
def gitAddAll (st : LocalGitState) : Option GoErr × LocalGitState :=
  if st.addFault then
    (some (GoErr.msgError "git add failed"), st)
  else
    (none, { st with index := st.workTree })

/-- The commit step of a job: under the failure-simulation toggle the commit
verb is the unrecognized command `procyon lotor`, so the subprocess fails;
otherwise `git commit` fails when the index matches HEAD (nothing to commit)
and otherwise makes the index the new committed tree. -/
def gitCommit (st : LocalGitState) : Option GoErr × LocalGitState :=
  if st.simulateCommitFailure then
    (some (GoErr.msgError "procyon lotor: not a git command"), st)
  else if st.index == st.committed then
    (some (GoErr.msgError cleanStatusMessageTail), st)
  else
    (none, { st with committed := st.index })

/-- `git reset --hard HEAD`: tracked files are restored from HEAD and the
index is reset; untracked working-tree files survive. -/
def gitResetHard (st : LocalGitState) : LocalGitState :=
  { st with
    index := st.committed
    workTree :=
      st.committed ++ st.workTree.filter (fun e => (alLookup e.fst st.committed).isNone) }

/-- `git clean -qfdx`: remove every untracked working-tree entry. -/
def gitClean (st : LocalGitState) : LocalGitState :=
  { st with workTree := st.workTree.filter (fun e => (alLookup e.fst st.committed).isSome) }

/-- `rollback` (src/unnamed/part_000 lines 73-82): run `reset --hard HEAD`
then `clean -qfdx`, ignoring their results. -/
def rollback (st : LocalGitState) : LocalGitState :=
  gitClean (gitResetHard st)

/-- Result of a job run through the serializer: the error returned to the
submitter, the final repository state, and the trace of git subprocess
invocations executed during the job. -/
structure JobResult where
  err : Option GoErr
  state : LocalGitState
  trace : List GitCmd
  deriving Repr

/-- The deferred handler of `executeBlobManipulationJob` (src/unnamed/part_000
lines 94-101): at return time, if the local variable `err` is non-nil the
rollback commands are executed. -/
def finishJob (err : Option GoErr) (retErr : Option GoErr) (st : LocalGitState)
    (trace : List GitCmd) : JobResult :=
  if err.isSome then
    { err := retErr, state := rollback st, trace := trace ++ [GitCmd.resetHard, GitCmd.clean] }
  else
    { err := retErr, state := st, trace := trace }

/-- `executeBlobManipulationJob` (src/unnamed/part_000 lines 84-119): run the
blob operation, then `git add -A`, then the commit step; each failing git
step returns a wrapped error.  The source guards the blob-operation result
with `if err != err` — a self-comparison that is always false — which is kept
literally here.  The deferred rollback fires exactly when the local `err`
variable is non-nil at return. -/
def executeBlobManipulationJob (blobOperation : LocalGitState → Option GoErr × LocalGitState)
    (st : LocalGitState) : JobResult :=
  let (err0, st0) := blobOperation st
  if err0 != err0 then
    finishJob err0 (some (GoErr.wrapped "failed blob operation"
      (err0.getD (GoErr.msgError "nil")))) st0 []
  else
    let (addErr, st1) := gitAddAll st0
    match addErr with
    | some e =>
      finishJob (some e) (some (GoErr.wrapped "failed to add files to index" e)) st1
        [GitCmd.addAll]
    | none =>
      let (commitErr, st2) := gitCommit st1
      match commitErr with
      | some e =>
        finishJob (some e) (some (GoErr.wrapped "failed to commit" e)) st2
          [GitCmd.addAll, GitCmd.commitCmd]
      | none => finishJob none none st2 [GitCmd.addAll, GitCmd.commitCmd]

/-- `pathToFile` (src/unnamed/part_000 lines 403-408): reject any key
containing a forward slash, otherwise join the repository location with the
key. -/
def pathToFile (location key : String) : Except GoErr String :=
  if strContains key "/" then
    Except.error (GoErr.msgError "invalid character in key: forward slash")
  else
    Except.ok (location ++ "/" ++ key)

/-- `createBlob` (src/unnamed/part_000 lines 121-149): map the key to a path,
create the parent directory (the repository root, which exists — the source
even calls MkdirAll twice) and write the file. -/
def createBlob (location key : String) (content : Bytes) (st : LocalGitState) :
    Option GoErr × LocalGitState :=
  match pathToFile location key with
  | Except.error pathErr => (some pathErr, st)
  | Except.ok path => (none, { st with workTree := alInsert path content st.workTree })

/-- `copyBlobContents` (src/unnamed/part_000 lines 184-205): open the source
(an absent source yields the `*PathError` of `os.Open`), create/truncate the
destination, copy the bytes, then flush with `out.Sync()`.  Under the
injected `syncFault` the flush fails after the destination content was
already written. -/
def copyBlobContents (src dst : String) (st : LocalGitState) :
    Option GoErr × LocalGitState :=
  match alLookup src st.workTree with
  | none => (some (GoErr.pathError "open" src "ENOENT"), st)
  | some content =>
    let st1 := { st with workTree := alInsert dst content st.workTree }
    if st.syncFault then
      (some (GoErr.pathError "sync" dst "EIO"), st1)
    else
      (none, st1)

/-- `deleteBlob` (src/unnamed/part_000 lines 255-269): map the key to a path
and `os.Remove` it.  The source compares the removal error to
`os.ErrNotExist` with `==`; `os.Remove` returns a `*fs.PathError`, which is
kept here, so the comparison is embedded literally. -/
def deleteBlob (location key : String) (st : LocalGitState) :
    Option GoErr × LocalGitState :=
  match pathToFile location key with
  | Except.error pathErr => (some pathErr, st)
  | Except.ok path =>
    match alLookup path st.workTree with
    | none =>
      let removeFileErr := GoErr.pathError "remove" path "ENOENT"
      if removeFileErr == osErrNotExist then
        (some (GoErr.wrapped "failed to remove blob" errBlobNotFound), st)
      else
        (some (GoErr.wrapped "failed to remove blob" removeFileErr), st)
    | some _ => (none, { st with workTree := alRemove path st.workTree })

/-- Result of a public local-backend mutating operation: the error returned
to the caller, the final state, and the git subprocess trace. -/
structure OpResult where
  err : Option GoErr
  state : LocalGitState
  trace : List GitCmd
  deriving Repr

/-- `AddBlob` of the local backend (src/unnamed/part_000 lines 151-182): the
key is validated up front via `pathToFile`, then the create-blob job is
submitted through `Enqueue` (executed here synchronously, matching the
submit-and-block semantics) and a failing job is wrapped. -/
def localAddBlob (location key : String) (content : Bytes) (st : LocalGitState) : OpResult :=
  match pathToFile location key with
  | Except.error pathErr => { err := some pathErr, state := st, trace := [] }
  | Except.ok _path =>
    let blobOperation := fun s =>
      let (e, s1) := createBlob location key content s
      match e with
      | some e0 => (some (GoErr.wrapped "failed to create blobfile" e0), s1)
      | none => (none, s1)
    let jr := executeBlobManipulationJob blobOperation st
    match jr.err with
    | some e =>
      { err := some (GoErr.wrapped "failed to add blobfile to git repository" e),
        state := jr.state, trace := jr.trace }
    | none => { err := none, state := jr.state, trace := jr.trace }

/-- `CopyBlob` of the local backend (src/unnamed/part_000 lines 207-240):
both keys are validated up front, then the copy job is submitted. -/
def localCopyBlob (location sourceKey destinationKey : String) (st : LocalGitState) : OpResult :=
  match pathToFile location sourceKey with
  | Except.error srcPathErr => { err := some srcPathErr, state := st, trace := [] }
  | Except.ok sourcePath =>
    match pathToFile location destinationKey with
    | Except.error destPathErr => { err := some destPathErr, state := st, trace := [] }
    | Except.ok destinationPath =>
      let blobOperation := fun s =>
        let (e, s1) := copyBlobContents sourcePath destinationPath s
        match e with
        | some e0 => (some (GoErr.wrapped "failed to copy file contents" e0), s1)
        | none => (none, s1)
      let jr := executeBlobManipulationJob blobOperation st
      match jr.err with
      | some e =>
        { err := some (GoErr.wrapped "failed to copy blobfile to git repository" e),
          state := jr.state, trace := jr.trace }
      | none => { err := none, state := jr.state, trace := jr.trace }

/-- `DeleteBlob` of the local backend (src/unnamed/part_000 lines 271-291):
unlike the other operations, the key is mapped to a path only inside the
enqueued job (within `deleteBlob`), not before submission. -/
def localDeleteBlob (location key : String) (st : LocalGitState) : OpResult :=
  let blobOperation := fun s => deleteBlob location key s
  let jr := executeBlobManipulationJob blobOperation st
  match jr.err with
  | some e =>
    { err := some (GoErr.wrapped "failed to remove blob from git repository" e),
      state := jr.state, trace := jr.trace }
  | none => { err := none, state := jr.state, trace := jr.trace }

/-- `GetBlob` of the local backend (src/unnamed/part_000 lines 242-253):
validate the key, then read the file from the working tree. -/
def localGetBlob (location key : String) (st : LocalGitState) :
    Except GoErr Bytes × List GitCmd :=
  match pathToFile location key with
  | Except.error pathErr => (Except.error pathErr, [])
  | Except.ok path =>
    match alLookup path st.workTree with
    | none =>
      (Except.error (GoErr.wrapped "failed to read file from local git repo"
        (GoErr.pathError "open" path "ENOENT")), [])
    | some content => (Except.ok content, [])

/-- `GetVersionFor` of the local backend (src/unnamed/part_000 lines
329-341): validate the key, then run `git log -n 1 --pretty=format:%H -- p`;
the output is empty when no commit touches the path. -/
def localGetVersionFor (location key : String) (st : LocalGitState) :
    Except GoErr String × List GitCmd :=
  match pathToFile location key with
  | Except.error pathErr => (Except.error pathErr, [])
  | Except.ok path =>
    let output := if (alLookup path st.committed).isSome then "headcommit" else ""
    (Except.ok output, [GitCmd.logLast path])

/-- `CheckStatus` of the local backend (src/unnamed/part_000 lines 293-300):
run `git status` and report whether the output contains the clean-tree
message tail. -/
def localCheckStatus (st : LocalGitState) : (Bool × Option GoErr) × List GitCmd :=
  let out :=
    if st.workTree == st.committed && st.index == st.committed then
      "On branch master " ++ cleanStatusMessageTail
    else
      "Changes not staged for commit"
  ((strContains out cleanStatusMessageTail, none), [GitCmd.statusCmd])

/-- `ListBlobKeys` of the local backend (src/unnamed/part_000 lines 310-325):
`git ls-tree -r HEAD --name-only` lists every committed path relative to the
repository root; nonempty trimmed lines are returned. -/
def localListBlobKeys (st : LocalGitState) : List String :=
  st.committed.map (fun e => e.fst)

/- ----------------------------------------------------------------------
Commit-metadata model and the two parsers (src/git/commit.go lines 1-117).
---------------------------------------------------------------------- -/

/-- A parsed calendar timestamp, the model of the Go `time.Time` value that
`time.Parse(time.RFC3339, s)` produces: date and clock fields, fractional
seconds as nanoseconds, and the numeric zone offset (with `isZulu` recording
the `Z` spelling, which Go distinguishes from `+00:00` by location). -/
structure GoTime where
  year : Nat
  month : Nat
  day : Nat
  hour : Nat
  minute : Nat
  second : Nat
  nanos : Nat
  offNeg : Bool
  offH : Nat
  offM : Nat
  isZulu : Bool
  deriving DecidableEq, Repr

/-- Numeric value of a decimal digit character. -/
def digitVal (c : Char) : Nat := c.toNat - 48

/-- Read exactly two decimal digits. -/
def read2 : List Char → Option (Nat × List Char)
  | a :: b :: rest =>
    if a.isDigit && b.isDigit then some (digitVal a * 10 + digitVal b, rest) else none
  | _ => none

/-- Read exactly four decimal digits. -/
def read4 : List Char → Option (Nat × List Char)
  | a :: b :: c :: d :: rest =>
    if a.isDigit && b.isDigit && c.isDigit && d.isDigit then
      some (digitVal a * 1000 + digitVal b * 100 + digitVal c * 10 + digitVal d, rest)
    else none
  | _ => none

/-- Expect one specific character. -/
def expectChar (c : Char) : List Char → Option (List Char)
  | x :: rest => if x == c then some rest else none
  | [] => none

/-- Gregorian leap-year rule, as validated by Go `time.Parse`. -/
def isLeapYear (y : Nat) : Bool := (y % 4 == 0 && y % 100 != 0) || y % 400 == 0

/-- Days of a month, as validated by Go `time.Parse`. -/
def daysInMonth (y m : Nat) : Nat :=
  if m == 2 then (if isLeapYear y then 29 else 28)
  else if m == 4 || m == 6 || m == 9 || m == 11 then 30
  else 31

/-- Nanoseconds denoted by a fractional-second digit string: the first nine
digits, right-padded with zeros. -/
def nanosOfDigits (ds : List Char) : Nat :=
  ((ds.take 9) ++ List.replicate (9 - ds.length) '0').foldl
    (fun acc c => acc * 10 + digitVal c) 0

/-- The optional fractional-second field Go accepts when parsing: a dot
followed by one or more digits. -/
def parseFrac : List Char → Nat × List Char
  | '.' :: rest =>
    let ds := rest.takeWhile Char.isDigit
    if ds.isEmpty then (0, '.' :: rest) else (nanosOfDigits ds, rest.drop ds.length)
  | s => (0, s)

/-- The zone-offset tail of an RFC3339 timestamp: `Z`, or a sign followed by
two digits, a colon and two digits, ending the input. -/
def parseZone : List Char → Option (Bool × Nat × Nat × Bool)
  | ['Z'] => some (false, 0, 0, true)
  | '+' :: rest => do
    let (h, rest) ← read2 rest
    let rest ← expectChar ':' rest
    let (m, rest) ← read2 rest
    if rest.isEmpty then some (false, h, m, false) else none
  | '-' :: rest => do
    let (h, rest) ← read2 rest
    let rest ← expectChar ':' rest
    let (m, rest) ← read2 rest
    if rest.isEmpty then some (true, h, m, false) else none
  | _ => none

/-- Model of Go `time.Parse(time.RFC3339, s)` on whole-second-or-fractional
RFC3339 text: `YYYY-MM-DDTHH:MM:SS[.fff](Z|±HH:MM)`, with the range checks Go
performs on month, day (per month, leap-aware), hour, minute and second.
Returns `none` where Go returns a `*time.ParseError`. -/
def parseRFC3339 (s : List Char) : Option GoTime := do
  let (y, s) ← read4 s
  let s ← expectChar '-' s
  let (mo, s) ← read2 s
  let s ← expectChar '-' s
  let (d, s) ← read2 s
  let s ← expectChar 'T' s
  let (h, s) ← read2 s
  let s ← expectChar ':' s
  let (mi, s) ← read2 s
  let s ← expectChar ':' s
  let (sec, s) ← read2 s
  let (ns, s) := parseFrac s
  let (offNeg, offH, offM, zulu) ← parseZone s
  if 1 ≤ mo && mo ≤ 12 && 1 ≤ d && d ≤ daysInMonth y mo && h ≤ 23 && mi ≤ 59 && sec ≤ 59 then
    some { year := y, month := mo, day := d, hour := h, minute := mi, second := sec,
           nanos := ns, offNeg := offNeg, offH := offH, offM := offM, isZulu := zulu }
  else
    none

/-- The canonical commit-provenance record `CommitMetadata`
(src/git/commit.go lines 26-32).  The Go zero `time.Time` of a field no date
line reached is `none`; a parsed date is `some`.  Text fields are rune
lists. -/
structure CommitMetadata where
  author : List Char
  authorDate : Option GoTime
  commit : List Char
  commitDate : Option GoTime
  message : List Char
  deriving DecidableEq, Repr

/-- Whitespace class of the RE2 `[\s]` atom: `[\t\n\f\r ]`. -/
def isWsChar (c : Char) : Bool :=
  c == ' ' || c == '\t' || c == '\n' || c == '\x0c' || c == '\r'

/-- Match of `^<tag>[\s]+(.+)$` on one line (the `Author:`/`Commit:` regexps,
src/git/commit.go lines 35 and 37), with RE2 leftmost-first semantics: the
greedy whitespace run is maximal subject to leaving at least one character
for the capture, which then extends to the end of the line. -/
def matchTagged (tag line : List Char) : Option (List Char) :=
  if tag.isPrefixOf line then
    let rest := line.drop tag.length
    let w := (rest.takeWhile isWsChar).length
    if w == 0 then none
    else if rest.length > w then some (rest.drop w)
    else if 2 ≤ w then some (rest.drop (w - 1))
    else none
  else none

/-- Match of `^<tag>[\s]+(.+)([0-9]{2})([0-9]{2})$` on one line (the
`AuthorDate:`/`CommitDate:` regexps, src/git/commit.go lines 36 and 38).  The
two fixed-width digit groups are anchored at the end of the line, so they are
always its last four characters; the greedy first capture takes everything
between the maximal feasible whitespace run and those four digits. -/
def matchDated (tag line : List Char) : Option (List Char × List Char × List Char) :=
  if tag.isPrefixOf line then
    let rest := line.drop tag.length
    let w := (rest.takeWhile isWsChar).length
    let n := rest.length
    let last4 := rest.drop (n - 4)
    if w == 0 then none
    else if n < 6 then none
    else if last4.all Char.isDigit then
      let k := min w (n - 5)
      let r := rest.drop k
      some (r.take (r.length - 4), last4.take 2, last4.drop 2)
    else none
  else none

/-- `parseTimeFromLocalCommitOutput` (src/git/commit.go lines 87-98):
reconstruct the timestamp by reinserting the colon between the two trailing
digit pairs and parse the result as RFC3339; a reconstruction that fails to
parse is an error, a line that does not match the regexp is `(zero, false,
nil)`, modelled as `ok none`. -/
def parseTimeFromLocalCommitOutput (tag line : List Char) :
    Except GoErr (Option GoTime) :=
  match matchDated tag line with
  | none => Except.ok none
  | some (c1, d1, d2) =>
    let rfc3339 := c1 ++ d1 ++ ':' :: d2
    match parseRFC3339 rfc3339 with
    | none =>
      Except.error (GoErr.wrapped "failed to parse time as RFC3339"
        (GoErr.timeParseError rfc3339))
    | some t => Except.ok (some t)

/-- Go `strings.Split` with a one-character separator. -/
def splitOnChar (sep : Char) : List Char → List (List Char)
  | [] => [[]]
  | c :: rest =>
    let r := splitOnChar sep rest
    if c == sep then [] :: r
    else
      match r with
      | [] => [[c]]
      | h :: t => (c :: h) :: t

/-- Go `strings.Trim` with the cutset given as a character list. -/
def trimCutset (cut : List Char) (s : List Char) : List Char :=
  ((s.dropWhile (fun c => cut.contains c)).reverse.dropWhile
    (fun c => cut.contains c)).reverse

/-- Go `strings.Join` with separator `"\n"`. -/
def joinLinesNl : List (List Char) → List Char
  | [] => []
  | [l] => l
  | l :: rest => l ++ '\n' :: joinLinesNl rest

/-- The per-line loop body of `ParseLocalCommitMetadata` (src/git/commit.go
lines 46-80), processed over the remaining lines with the accumulated
metadata and message buffer. -/
def parseLocalLines : List (List Char) → CommitMetadata → List (List Char) →
    Except GoErr (CommitMetadata × List (List Char))
  | [], md, buf => Except.ok (md, buf)
  | line :: rest, md, buf =>
    match matchTagged "Author:".data line with
    | some capture => parseLocalLines rest { md with author := capture } buf
    | none =>
      match matchTagged "Commit:".data line with
      | some capture => parseLocalLines rest { md with commit := capture } buf
      | none =>
        match parseTimeFromLocalCommitOutput "AuthorDate:".data line with
        | Except.error e => Except.error e
        | Except.ok (some tim) => parseLocalLines rest { md with authorDate := some tim } buf
        | Except.ok none =>
          match parseTimeFromLocalCommitOutput "CommitDate:".data line with
          | Except.error e => Except.error e
          | Except.ok (some tim) =>
            parseLocalLines rest { md with commitDate := some tim } buf
          | Except.ok none =>
            if "    ".data.isPrefixOf line then
              parseLocalLines rest md (buf ++ [trimCutset [' ', '\t'] line])
            else
              parseLocalLines rest md buf

/-- `ParseLocalCommitMetadata` (src/git/commit.go lines 41-85): scan the
newline-split lines for the four fixed-prefix fields and the four-space
indented message body, join the trimmed message lines with newlines, and
propagate any date-parse error. -/
def parseLocalCommitMetadata (metadata : List Char) : Except GoErr CommitMetadata :=
  match parseLocalLines (splitOnChar '\n' metadata)
      { author := [], authorDate := none, commit := [], commitDate := none, message := [] }
      [] with
  | Except.error e => Except.error e
  | Except.ok (md, buf) => Except.ok { md with message := joinLinesNl buf }

/-- The structured remote commit record `CommitQueryResponseItem`
(src/git/commit.go lines 15-24). -/
structure CommitQueryResponseItem where
  id : List Char
  committedDate : List Char
  message : List Char
  authorName : List Char
  authorEmail : List Char
  authoredDate : List Char
  committerName : List Char
  committerEmail : List Char
  deriving DecidableEq, Repr

/-- `GitlabCommitResponseToMetadata` (src/git/commit.go lines 100-117): parse
the two structured dates as RFC3339 and concatenate each name/email pair into
the display form; the record literal sets only Author, AuthorDate, Commit and
CommitDate, so Message stays the zero string. -/
def gitlabCommitResponseToMetadata (response : CommitQueryResponseItem) :
    Except GoErr CommitMetadata :=
  match parseRFC3339 response.authoredDate with
  | none =>
    Except.error (GoErr.wrapped "failed to parse time as RFC3339"
      (GoErr.timeParseError response.authoredDate))
  | some authorDate =>
    match parseRFC3339 response.committedDate with
    | none =>
      Except.error (GoErr.wrapped "failed to parse time as RFC3339"
        (GoErr.timeParseError response.committedDate))
    | some commitDate =>
      Except.ok
        { author := response.authorName ++ " <".data ++ response.authorEmail ++ ">".data
          authorDate := some authorDate
          commit := response.committerName ++ " <".data ++ response.committerEmail ++ ">".data
          commitDate := some commitDate
          message := [] }

/- ----------------------------------------------------------------------
Remote (GitLab) backend (src/git/commit.go lines 119-665, package gitlab).
---------------------------------------------------------------------- -/

/-- The `has already been taken` message fragment
(src/git/commit.go line 142). -/
def gitlabRepoHasAlreadyBeenTaken : String := "has already been taken"

/-- The recognized transient repository-creation messages
(src/git/commit.go lines 144-147). -/
def transientGitlabRepoCreationErrMessages : List String :=
  ["The project is still being deleted. Please try again later.",
   gitlabRepoHasAlreadyBeenTaken]

/-- `isTransientGitlabRepoCreationErrMessage` (src/git/commit.go lines
149-156): true iff the message contains one of the recognized fragments. -/
def isTransientGitlabRepoCreationErrMessage (message : String) : Bool :=
  transientGitlabRepoCreationErrMessages.any (fun fragment => strContains message fragment)

/-- The environment's answer to one `POST /projects` attempt: either a
transport error (`sendRequest` returned a non-nil `error`) or a response with
a status code and body. -/
inductive HttpAttempt where
  | transport
  | resp (status : Nat) (body : String)
  deriving DecidableEq, Repr

/-- Externally visible step of `CreateRepository`: the creation request, a
`time.Sleep`, or the self-healing `DeleteRepository` call. -/
inductive CrStep where
  | post
  | sleepMs (ms : Nat)
  | deleteProject
  deriving DecidableEq, Repr

/-- Outcome of `CreateRepository`: success, a returned error, the
`panic("Too many retries creating GitLab repo")`, or the case where the
scripted environment ran out of responses while the loop wanted another
attempt. -/
inductive CrOutcome where
  | ok
  | err (e : GoErr)
  | panicked (msg : String)
  | outOfScript
  deriving DecidableEq, Repr

/-- `sleepBeforeRetryMs` (src/git/commit.go line 285). -/
def sleepBeforeRetryMs : Nat := 1000

/-- `maxRetryCount` (src/git/commit.go line 286). -/
def maxRetryCount : Nat := 20

/-- The retry loop of `CreateRepository` (src/git/commit.go lines 289-322),
driven by a script of per-attempt environment answers: a transport error or a
status other than 201/400 returns an error; a 400 status with a recognized
transient message increments the retry counter (panicking at the bound),
sleeps, additionally deletes the project and sleeps again on the
already-taken fragment, and retries; every remaining case — a 201, or a 400
with an unrecognized message — falls through to the success return. -/
def createRepositoryLoop (retryCount : Nat) : List HttpAttempt → CrOutcome × List CrStep
  | [] => (CrOutcome.outOfScript, [])
  | attempt :: rest =>
    match attempt with
    | HttpAttempt.transport =>
      (CrOutcome.err (GoErr.msgError "failed to create project"), [CrStep.post])
    | HttpAttempt.resp status body =>
      if status != 201 && status != 400 then
        (CrOutcome.err (GoErr.msgError "failed to create project"), [CrStep.post])
      else if status == 400 && isTransientGitlabRepoCreationErrMessage body then
        let retryCount1 := retryCount + 1
        if maxRetryCount ≤ retryCount1 then
          (CrOutcome.panicked "Too many retries creating GitLab repo", [CrStep.post])
        else
          let steps :=
            [CrStep.post, CrStep.sleepMs sleepBeforeRetryMs] ++
              (if strContains body gitlabRepoHasAlreadyBeenTaken then
                [CrStep.deleteProject, CrStep.sleepMs sleepBeforeRetryMs]
              else [])
          let (outcome, more) := createRepositoryLoop retryCount1 rest
          (outcome, steps ++ more)
      else
        (CrOutcome.ok, [CrStep.post])

/-- `CreateRepository` of the remote backend (src/git/commit.go lines
282-323): the loop started with a zero retry counter. -/
def gitlabCreateRepository (script : List HttpAttempt) : CrOutcome × List CrStep :=
  createRepositoryLoop 0 script

/-- The commit action type enumeration (src/git/commit.go lines 193-201). -/
inductive CommitActionType where
  | create
  | delete
  | move
  | update
  | chmod
  deriving DecidableEq, Repr

/-- The JSON string of a commit action type. -/
def commitActionTypeStr : CommitActionType → String
  | CommitActionType.create => "create"
  | CommitActionType.delete => "delete"
  | CommitActionType.move => "move"
  | CommitActionType.update => "update"
  | CommitActionType.chmod => "chmod"

/-- `commitActionOnByteSlice` (src/git/commit.go lines 203-207). -/
structure CommitActionOnByteSlice where
  action : CommitActionType
  filePath : String
  content : Bytes
  deriving DecidableEq, Repr

/-- `commitAction` (src/git/commit.go lines 216-221), the wire-level action
record: `Content` and `Encoding` are `*string` pointers whose `nil` state is
`none`. -/
structure CommitAction where
  action : CommitActionType
  filePath : String
  content : Option String
  encoding : Option String
  deriving DecidableEq, Repr

/-- `commitProperties` (src/git/commit.go lines 209-214). -/
structure CommitProperties where
  branch : String
  authorName : String
  commitMessage : String
  actions : List CommitAction
  deriving DecidableEq, Repr

/-- The standard base64 alphabet of Go `base64.StdEncoding`. -/
def base64Alphabet : List Char :=
  "ABCDEFGHIJKLMNOPQRSTUVWXYZabcdefghijklmnopqrstuvwxyz0123456789+/".data

/-- Character of a 6-bit group. -/
def b64Char (n : Nat) : Char := base64Alphabet.getD n 'A'

/-- Go `base64.StdEncoding.EncodeToString` on a byte list: three input bytes
become four alphabet characters, with `=` padding for a trailing group of one
or two bytes. -/
def base64Encode : List Nat → List Char
  | b0 :: b1 :: b2 :: rest =>
    let n := (b0 % 256) * 65536 + (b1 % 256) * 256 + (b2 % 256)
    b64Char (n / 262144 % 64) :: b64Char (n / 4096 % 64) :: b64Char (n / 64 % 64) ::
      b64Char (n % 64) :: base64Encode rest
  | [b0, b1] =>
    let n := (b0 % 256) * 65536 + (b1 % 256) * 256
    [b64Char (n / 262144 % 64), b64Char (n / 4096 % 64), b64Char (n / 64 % 64), '=']
  | [b0] =>
    let n := (b0 % 256) * 65536
    [b64Char (n / 262144 % 64), b64Char (n / 4096 % 64), '=', '=']
  | [] => []

/-- The per-action conversion inside `createCommitBody` (src/git/commit.go
lines 373-383): content longer than one byte is base64-encoded and tagged
`base64`; otherwise the two pointers stay nil; action and file path are
copied. -/
def createCommitBodyActions (actionsIn : List CommitActionOnByteSlice) : List CommitAction :=
  actionsIn.map fun actionIn =>
    if actionIn.content.length > 1 then
      { action := actionIn.action, filePath := actionIn.filePath,
        content := some (String.mk (base64Encode actionIn.content)),
        encoding := some "base64" }
    else
      { action := actionIn.action, filePath := actionIn.filePath,
        content := none, encoding := none }

/-- The `commitProperties` value `createCommitBody` marshals
(src/git/commit.go lines 385-390). -/
def createCommitBodyProps (branch authorName commitMessage : String)
    (actionsIn : List CommitActionOnByteSlice) : CommitProperties :=
  { branch := branch, authorName := authorName, commitMessage := commitMessage,
    actions := createCommitBodyActions actionsIn }

/-- Go `encoding/json` rendering of a string value (quotes; the inputs in
scope contain no characters the encoder escapes). -/
def jsonString (s : String) : List Char := '"' :: s.data ++ ['"']

/-- Go `encoding/json` rendering of a `commitAction` record: fields in struct
order under their tags; a nil `*string` marshals as the JSON `null` literal,
since neither tag carries `omitempty` (src/git/commit.go lines 216-221). -/
def jsonOfCommitAction (a : CommitAction) : List Char :=
  "\x7b\"action\":".data ++ jsonString (commitActionTypeStr a.action) ++
    ",\"file_path\":".data ++ jsonString a.filePath ++
    ",\"content\":".data ++
      (match a.content with
       | none => "null".data
       | some s => jsonString s) ++
    ",\"encoding\":".data ++
      (match a.encoding with
       | none => "null".data
       | some s => jsonString s) ++
    "\x7d".data

/-- JSON rendering of a list of values joined by commas inside brackets. -/
def jsonArray (items : List (List Char)) : List Char :=
  '[' :: (items.intersperse ",".data).flatten ++ [']']

/-- Go `encoding/json` rendering of the whole `commitProperties` request body
(src/git/commit.go lines 209-214 and 391-395). -/
def jsonOfCommitProperties (p : CommitProperties) : List Char :=
  "\x7b\"branch\":".data ++ jsonString p.branch ++
    ",\"author_name\":".data ++ jsonString p.authorName ++
    ",\"commit_message\":".data ++ jsonString p.commitMessage ++
    ",\"actions\":".data ++ jsonArray (p.actions.map jsonOfCommitAction) ++
    "\x7d".data

/-- Modelled from the spec: the `BlobInfo` record of the repository root
package `vcblobstore` (not under `src/`): key, content bytes and the
modifying user. -/
structure BlobInfo where
  key : String
  content : Bytes
  modifiedBy : String
  deriving DecidableEq, Repr

/-- Addressing data of the remote backend that the commit request uses
(`Gitlab.mainBranch`, src/git/commit.go lines 182-187). -/
structure GitlabRepoCfg where
  mainBranch : String
  deriving DecidableEq, Repr

/-- The single-action list `AddBlob` of the remote backend passes to
`commit` (src/git/commit.go lines 494-500): one `create` action for the
blob's key and content. -/
def gitlabAddBlobActions (blob : BlobInfo) : List CommitActionOnByteSlice :=
  [{ action := CommitActionType.create, filePath := blob.key, content := blob.content }]

/-- The commit request body `AddBlob` submits, built through
`createCommitBody` exactly as `commit` does (src/git/commit.go lines 489-506
and 562-582). -/
def gitlabAddBlobCommitProps (g : GitlabRepoCfg) (blob : BlobInfo) : CommitProperties :=
  createCommitBodyProps g.mainBranch blob.modifiedBy
    ("Adding Blob: " ++ blob.key) (gitlabAddBlobActions blob)

/-- The single-action list `DeleteBlob` of the remote backend passes to
`commit` (src/git/commit.go lines 511-516): one `delete` action with no
content. -/
def gitlabDeleteBlobActions (key : String) : List CommitActionOnByteSlice :=
  [{ action := CommitActionType.delete, filePath := key, content := [] }]

/-- `CheckStatus` of the remote backend (src/git/commit.go lines 431-434):
unconditionally `(true, nil)`. -/
def gitlabCheckStatus (_g : GitlabRepoCfg) : Bool × Option GoErr :=
  (true, none)

/- ----------------------------------------------------------------------
Concrete inputs and renderings used by the claim theorems.
---------------------------------------------------------------------- -/

/-- A clean, fully committed, empty local repository with no injected
faults. -/
def cleanEmptyState : LocalGitState :=
  { committed := [], index := [], workTree := [], simulateCommitFailure := false,
    addFault := false, syncFault := false }

/-- A clean local repository holding the single committed blob `a` (at path
`loc/a`), with the flush-to-disk fault injected: the next `out.Sync()` inside
`copyBlobContents` fails after the destination bytes were written. -/
def syncFaultState : LocalGitState :=
  { committed := [("loc/a", [1, 2])], index := [("loc/a", [1, 2])],
    workTree := [("loc/a", [1, 2])], simulateCommitFailure := false,
    addFault := false, syncFault := true }

/-- An empty local repository running under the documented
`GIT_COMMIT_FAIL_INTRUSIVE_TEST=true` toggle, which makes the commit step of
every job fail. -/
def simulateFailureState : LocalGitState :=
  { committed := [], index := [], workTree := [], simulateCommitFailure := true,
    addFault := false, syncFault := false }

/-- Nonempty list whose head is not an RE2 whitespace character — the shape a
captured field must have for the greedy `[\s]+` run not to eat into it. -/
def headNonWs : List Char → Bool
  | [] => false
  | c :: _ => !isWsChar c

/-- The facts of one commit observed by both backends: names and e-mails of
author and committer, the two timestamps (given as the text before the
final four offset digits plus those digit characters), the hash and the
message lines. -/
structure CommitFacts where
  hash : List Char
  name : List Char
  email : List Char
  cname : List Char
  cemail : List Char
  aPfx : List Char
  ah1 : Char
  ah2 : Char
  am1 : Char
  am2 : Char
  cPfx : List Char
  ch1 : Char
  ch2 : Char
  cm1 : Char
  cm2 : Char
  msgLines : List (List Char)

/-- Well-formedness of `CommitFacts`: no embedded newlines (the fields sit on
single lines of the textual output), display names and date prefixes are
nonempty and do not start with whitespace, and the four trailing offset
characters of each date are digits. -/
def CommitFacts.wf (c : CommitFacts) : Prop :=
  ¬ '\n' ∈ c.hash ∧ ¬ '\n' ∈ c.name ∧ ¬ '\n' ∈ c.email ∧
  ¬ '\n' ∈ c.cname ∧ ¬ '\n' ∈ c.cemail ∧ ¬ '\n' ∈ c.aPfx ∧ ¬ '\n' ∈ c.cPfx ∧
  (∀ l ∈ c.msgLines, ¬ '\n' ∈ l) ∧
  headNonWs c.name = true ∧ headNonWs c.cname = true ∧
  headNonWs c.aPfx = true ∧ headNonWs c.cPfx = true ∧
  ([c.ah1, c.ah2, c.am1, c.am2].all Char.isDigit) = true ∧
  ([c.ch1, c.ch2, c.cm1, c.cm2].all Char.isDigit) = true

/-- The `"Name <email>"` display form (`fmt.Sprintf("%s <%s>", name, email)`,
src/git/commit.go lines 112 and 114; the same shape git prints on the
`Author:`/`Commit:` lines of `--format=fuller` output). -/
def displayNameEmail (name email : List Char) : List Char :=
  name ++ " <".data ++ email ++ ">".data

/-- The local timestamp text of a commit fact: the prefix followed by the
four offset digits with no colon (the `--date=format:%Y-%m-%dT%H:%M:%S%z`
form of spec section 6). -/
def CommitFacts.aDateLocal (c : CommitFacts) : List Char :=
  c.aPfx ++ [c.ah1, c.ah2, c.am1, c.am2]

/-- Local commit-date text, colon-less offset form. -/
def CommitFacts.cDateLocal (c : CommitFacts) : List Char :=
  c.cPfx ++ [c.ch1, c.ch2, c.cm1, c.cm2]

/-- The RFC3339 reading of the author date: the same text with the offset
colon reinserted between the two digit pairs. -/
def CommitFacts.aDateRfc (c : CommitFacts) : List Char :=
  c.aPfx ++ [c.ah1, c.ah2, ':', c.am1, c.am2]

/-- The RFC3339 reading of the commit date. -/
def CommitFacts.cDateRfc (c : CommitFacts) : List Char :=
  c.cPfx ++ [c.ch1, c.ch2, ':', c.cm1, c.cm2]

/-- The lines of the `git show --quiet --format=fuller` textual output for a
commit (the query issued by `GetVersionMetadata`, src/unnamed/part_000 line
346; output shape per spec section 6): hash line, `Author:`/`AuthorDate:`/
`Commit:`/`CommitDate:` field lines, a blank separator and the four-space
indented message body. -/
def CommitFacts.localShowLines (c : CommitFacts) : List (List Char) :=
  [("commit ".data ++ c.hash),
   ("Author:".data ++ [' ', ' ', ' ', ' ', ' '] ++ displayNameEmail c.name c.email),
   ("AuthorDate:".data ++ ' ' :: c.aDateLocal),
   ("Commit:".data ++ [' ', ' ', ' ', ' ', ' '] ++ displayNameEmail c.cname c.cemail),
   ("CommitDate:".data ++ ' ' :: c.cDateLocal),
   []] ++ c.msgLines.map (fun l => "    ".data ++ l)

/-- The raw local textual output for the commit. -/
def CommitFacts.localShowOutput (c : CommitFacts) : List Char :=
  joinLinesNl c.localShowLines

/-- The structured remote response record for the same commit: the dates are
standard offset-aware RFC3339 timestamps and the message is carried in the
`message` field. -/
def CommitFacts.remoteResponse (c : CommitFacts) : CommitQueryResponseItem :=
  { id := c.hash
    committedDate := c.cDateRfc
    message := joinLinesNl c.msgLines
    authorName := c.name
    authorEmail := c.email
    authoredDate := c.aDateRfc
    committerName := c.cname
    committerEmail := c.cemail }

/-- Number of creation requests issued in a `CreateRepository` step trace. -/
def postCount (steps : List CrStep) : Nat :=
  steps.countP (fun s => s == CrStep.post)

/-- The concrete commit facts of the counterexample: a commit whose message
is the commit message the local backend writes for an added blob. -/
def counterexampleCommit : CommitFacts :=
  { hash := "0a1b2c".data
    name := "ux".data
    email := "ux".data
    cname := "ux".data
    cemail := "ux".data
    aPfx := "2024-05-01T10:14:09+".data
    ah1 := '0', ah2 := '2', am1 := '0', am2 := '0'
    cPfx := "2024-05-01T10:14:09+".data
    ch1 := '0', ch2 := '2', cm1 := '0', cm2 := '0'
    msgLines := ["blob file version added by ux".data] }

/-- The timestamp denoted by the counterexample dates. -/
def counterexampleTime : GoTime :=
  { year := 2024, month := 5, day := 1, hour := 10, minute := 14, second := 9,
    nanos := 0, offNeg := false, offH := 2, offM := 0, isZulu := false }

/-- The metadata record a single `AuthorDate:` line produces: only the
author-date field is populated. -/
def mdOnlyAuthorDate (t : GoTime) : CommitMetadata :=
  { author := [], authorDate := some t, commit := [], commitDate := none, message := [] }

/-- The metadata record a single `CommitDate:` line produces: only the
commit-date field is populated. -/
def mdOnlyCommitDate (t : GoTime) : CommitMetadata :=
  { author := [], authorDate := none, commit := [], commitDate := some t, message := [] }

/- ----------------------------------------------------------------------
Theorems.
---------------------------------------------------------------------- -/

/-- C9: the remote backend's `CheckStatus` returns `(true, nil)`
unconditionally, for every repository configuration and regardless of any
hosted state. -/
theorem gitlabCheckStatus_always_true_nil :
    ∀ g : GitlabRepoCfg, gitlabCheckStatus g = (true, none) := by
  intro g
  rfl

/-- C10: the commit request built by remote `AddBlob` carries exactly one
action, its type is always `create` and never `update`, and its file path is
the blob's key — for every blob, whether or not the key already exists. -/
theorem gitlabAddBlob_single_create_action :
    ∀ (g : GitlabRepoCfg) (blob : BlobInfo),
      (gitlabAddBlobCommitProps g blob).actions.length = 1 ∧
      ((gitlabAddBlobCommitProps g blob).actions.all
        (fun a => a.action == CommitActionType.create)) = true ∧
      ((gitlabAddBlobCommitProps g blob).actions.all
        (fun a => a.action != CommitActionType.update)) = true ∧
      ((gitlabAddBlobCommitProps g blob).actions.all
        (fun a => a.filePath == blob.key)) = true := by
  intro g blob
  refine ⟨?_, ?_, ?_, ?_⟩ <;>
    simp [gitlabAddBlobCommitProps, createCommitBodyProps, createCommitBodyActions,
      gitlabAddBlobActions, List.all] <;>
    split <;> simp

/-- C1 (code-bug evidence): on a clean repository holding blob `a`, a
`CopyBlob` whose filesystem step fails — the destination bytes are written
but the `out.Sync()` flush fails — nevertheless returns no error, executes no
rollback, and commits the unsynced destination file: the always-false
`err != err` guard (src/unnamed/part_000 line 104) discards the
blob-operation failure.  By contrast, a commit-step failure (the documented
simulation toggle) behaves as the claim states: the operation errors, the
rollback commands run, the status is clean again and the attempted blob is
absent from the listed keys. -/
theorem localBackend_failed_blob_step_committed_without_rollback :
    (copyBlobContents "loc/a" "loc/b" syncFaultState).1.isSome = true ∧
    (localCopyBlob "loc" "a" "b" syncFaultState).err = none ∧
    (localCopyBlob "loc" "a" "b" syncFaultState).trace.contains GitCmd.resetHard = false ∧
    alLookup "loc/b" (localCopyBlob "loc" "a" "b" syncFaultState).state.committed =
      some [1, 2] ∧
    (localAddBlob "loc" "k" [7] simulateFailureState).err.isSome = true ∧
    (localAddBlob "loc" "k" [7] simulateFailureState).trace =
      [GitCmd.addAll, GitCmd.commitCmd, GitCmd.resetHard, GitCmd.clean] ∧
    (localCheckStatus (localAddBlob "loc" "k" [7] simulateFailureState).state).1 =
      (true, none) ∧
    localListBlobKeys (localAddBlob "loc" "k" [7] simulateFailureState).state = [] := by
  decide

/-- C2 (code-bug evidence): `DeleteBlob` on the key `nosuch`, for which no
blob file exists, returns an error that does not wrap `ErrBlobNotFound` — it
is the commit-step failure `nothing to commit, working tree clean`, because
`os.Remove`'s `*PathError` is compared to `os.ErrNotExist` with `==`
(src/unnamed/part_000 line 263, never equal) and the blob-operation error is
then discarded by the `err != err` guard.  The no-partial-mutation half of
the claim holds: `CheckStatus` reports true afterward. -/
theorem localDeleteBlob_missing_key_error_not_blobNotFound :
    (localDeleteBlob "loc" "nosuch" cleanEmptyState).err =
      some (GoErr.wrapped "failed to remove blob from git repository"
        (GoErr.wrapped "failed to commit" (GoErr.msgError cleanStatusMessageTail))) ∧
    ((localDeleteBlob "loc" "nosuch" cleanEmptyState).err.map
      (fun e => goErrWraps e errBlobNotFound)) = some false ∧
    ((deleteBlob "loc" "nosuch" cleanEmptyState).1.map
      (fun e => goErrWraps e errBlobNotFound)) = some false ∧
    (localCheckStatus (localDeleteBlob "loc" "nosuch" cleanEmptyState).state).1 =
      (true, none) := by
  decide

/-- C3 (counterexample): a creation attempt answered by a single 400 response
whose body carries an unrecognized (non-transient) message is a failing
response, yet `CreateRepository` returns success (nil) instead of an error —
the 400 status passes the first guard and the transient check falls through
to the success return (src/git/commit.go lines 295-321). -/
theorem gitlabCreateRepository_unrecognized_400_returns_ok :
    isTransientGitlabRepoCreationErrMessage "name is invalid" = false ∧
    gitlabCreateRepository [HttpAttempt.resp 400 "name is invalid"] =
      (CrOutcome.ok, [CrStep.post]) := by
  decide

/-- C4 (counterexample): for a concrete commit observed both as local
textual output and as the structured remote response, the two parsers
disagree: they produce the same Author, AuthorDate, Commit and CommitDate,
but the local parser extracts the message body while
`GitlabCommitResponseToMetadata` never sets Message, so the resulting
`CommitMetadata` values are not equal. -/
theorem commit_parsers_differ_on_message :
    ∃ mdL mdR,
      parseLocalCommitMetadata counterexampleCommit.localShowOutput = Except.ok mdL ∧
      gitlabCommitResponseToMetadata counterexampleCommit.remoteResponse = Except.ok mdR ∧
      mdL.author = mdR.author ∧ mdL.authorDate = mdR.authorDate ∧
      mdL.commit = mdR.commit ∧ mdL.commitDate = mdR.commitDate ∧
      mdL.message = "blob file version added by ux".data ∧
      mdR.message = [] ∧
      mdL ≠ mdR := by
  refine ⟨_, _, rfl, rfl, ?_, ?_, ?_, ?_, ?_, ?_, ?_⟩ <;> decide

/-- C7 (counterexample): in the marshaled commit request body, an action
whose content is at most one byte long does not omit the content and
encoding fields — the `commitAction` struct tags carry no `omitempty`
(src/git/commit.go lines 216-221), so the nil pointers are serialized as
explicit JSON nulls and both keys appear in the body. -/
theorem commitBody_trivial_content_serialized_as_null :
    containsSub
      (jsonOfCommitProperties
        (createCommitBodyProps "main" "ux" "Deleting blob: k"
          [{ action := CommitActionType.delete, filePath := "k", content := [] }]))
      "\"content\":null".data = true ∧
    containsSub
      (jsonOfCommitProperties
        (createCommitBodyProps "main" "ux" "Deleting blob: k"
          [{ action := CommitActionType.delete, filePath := "k", content := [] }]))
      "\"encoding\":null".data = true := by
  decide

theorem containsSub_append_right (x y n : List Char) (h : containsSub y n = true) :
    containsSub (x ++ y) n = true := by
  induction x with
  | nil => simpa using h
  | cons c t ih =>
    rw [List.cons_append, containsSub]
    simp only [ih, Bool.or_true]

theorem containsSub_slash (a b : List Char) : containsSub (a ++ '/' :: b) ['/'] = true := by
  apply containsSub_append_right
  rw [containsSub]
  simp [List.isPrefixOf]

theorem strContains_slash (a b : String) : strContains (a ++ "/" ++ b) "/" = true := by
  have h : (a ++ "/" ++ b).data = a.data ++ '/' :: b.data := by
    rw [String.data_append, String.data_append, List.append_assoc]
    rfl
  rw [strContains, h]
  exact containsSub_slash a.data b.data

theorem pathToFile_slash (location a b : String) :
    pathToFile location (a ++ "/" ++ b) =
      Except.error (GoErr.msgError "invalid character in key: forward slash") := by
  rw [pathToFile, strContains_slash]
  rfl

/-- C5 (code-bug evidence): for every key containing a path separator,
`AddBlob`, `GetBlob`, `GetVersionFor` and `CopyBlob` (either key) return the
validation error before any git subprocess runs and leave the state
untouched; but `DeleteBlob` maps the key to a path only inside the enqueued
job, and because the `err != err` guard discards the blob-operation error,
it goes on to execute `git add -A`, a commit attempt and the rollback
commands, and returns a commit-failure error — not the validation error. -/
theorem slash_key_validation_and_deleteBlob_divergence :
    (∀ (location a b : String) (content : Bytes) (st : LocalGitState),
       localAddBlob location (a ++ "/" ++ b) content st =
         { err := some (GoErr.msgError "invalid character in key: forward slash"),
           state := st, trace := [] }) ∧
    (∀ (location a b : String) (st : LocalGitState),
       localGetBlob location (a ++ "/" ++ b) st =
         (Except.error (GoErr.msgError "invalid character in key: forward slash"), [])) ∧
    (∀ (location a b : String) (st : LocalGitState),
       localGetVersionFor location (a ++ "/" ++ b) st =
         (Except.error (GoErr.msgError "invalid character in key: forward slash"), [])) ∧
    (∀ (location a b destinationKey : String) (st : LocalGitState),
       localCopyBlob location (a ++ "/" ++ b) destinationKey st =
         { err := some (GoErr.msgError "invalid character in key: forward slash"),
           state := st, trace := [] }) ∧
    (∀ (location a b : String) (st : LocalGitState),
       localCopyBlob location "s" (a ++ "/" ++ b) st =
         { err := some (GoErr.msgError "invalid character in key: forward slash"),
           state := st, trace := [] }) ∧
    (localDeleteBlob "loc" "a/b" cleanEmptyState).trace =
      [GitCmd.addAll, GitCmd.commitCmd, GitCmd.resetHard, GitCmd.clean] ∧
    (localDeleteBlob "loc" "a/b" cleanEmptyState).err =
      some (GoErr.wrapped "failed to remove blob from git repository"
        (GoErr.wrapped "failed to commit" (GoErr.msgError cleanStatusMessageTail))) ∧
    ((localDeleteBlob "loc" "a/b" cleanEmptyState).err.map
      (fun e => goErrWraps e (GoErr.msgError "invalid character in key: forward slash"))) =
      some false ∧
    (localDeleteBlob "loc" "a/b" cleanEmptyState).state = cleanEmptyState := by
  refine ⟨?_, ?_, ?_, ?_, ?_, ?_, ?_, ?_, ?_⟩
  · intro location a b content st
    rw [localAddBlob, pathToFile_slash]
  · intro location a b st
    rw [localGetBlob, pathToFile_slash]
  · intro location a b st
    rw [localGetVersionFor, pathToFile_slash]
  · intro location a b destinationKey st
    rw [localCopyBlob, pathToFile_slash]
  · intro location a b st
    have hs : pathToFile location "s" = Except.ok (location ++ "/" ++ "s") := by
      rw [pathToFile]
      norm_num [show strContains "s" "/" = false from by decide]
    rw [localCopyBlob, hs, pathToFile_slash]
  · decide
  · decide
  · decide
  · decide

theorem crLoop_transport (rc : Nat) (rest : List HttpAttempt) :
    createRepositoryLoop rc (HttpAttempt.transport :: rest) =
      (CrOutcome.err (GoErr.msgError "failed to create project"), [CrStep.post]) := rfl

theorem crLoop_other_status (rc status : Nat) (body : String) (rest : List HttpAttempt)
    (h : (status != 201 && status != 400) = true) :
    createRepositoryLoop rc (HttpAttempt.resp status body :: rest) =
      (CrOutcome.err (GoErr.msgError "failed to create project"), [CrStep.post]) := by
  simp only [createRepositoryLoop, h, if_true]

theorem crLoop_400_not_transient (rc : Nat) (body : String) (rest : List HttpAttempt)
    (h : isTransientGitlabRepoCreationErrMessage body = false) :
    createRepositoryLoop rc (HttpAttempt.resp 400 body :: rest) =
      (CrOutcome.ok, [CrStep.post]) := by
  simp [createRepositoryLoop, h]

theorem crLoop_201 (rc : Nat) (body : String) (rest : List HttpAttempt) :
    createRepositoryLoop rc (HttpAttempt.resp 201 body :: rest) =
      (CrOutcome.ok, [CrStep.post]) := by
  simp [createRepositoryLoop]

theorem crLoop_transient_steps (rc : Nat) (body : String) (rest : List HttpAttempt)
    (hrc : rc + 1 < maxRetryCount)
    (ht : isTransientGitlabRepoCreationErrMessage body = true) :
    createRepositoryLoop rc (HttpAttempt.resp 400 body :: rest) =
      ((createRepositoryLoop (rc + 1) rest).1,
        ([CrStep.post, CrStep.sleepMs sleepBeforeRetryMs] ++
          (if strContains body gitlabRepoHasAlreadyBeenTaken then
            [CrStep.deleteProject, CrStep.sleepMs sleepBeforeRetryMs]
          else [])) ++ (createRepositoryLoop (rc + 1) rest).2) := by
  have hnb : ¬ maxRetryCount ≤ rc + 1 := by omega
  cases hres : createRepositoryLoop (rc + 1) rest with
  | mk o m =>
    simp [createRepositoryLoop, ht, hnb, hres]

theorem crLoop_transient_panic (rc : Nat) (body : String) (rest : List HttpAttempt)
    (hrc : maxRetryCount ≤ rc + 1)
    (ht : isTransientGitlabRepoCreationErrMessage body = true) :
    createRepositoryLoop rc (HttpAttempt.resp 400 body :: rest) =
      (CrOutcome.panicked "Too many retries creating GitLab repo", [CrStep.post]) := by
  simp [createRepositoryLoop, ht, hrc]

theorem status_201_of_guards (status : Nat) (h1 : ¬ (status != 201 && status != 400) = true)
    (h2 : ¬ status = 400) : status = 201 := by
  simp only [Bool.and_eq_true, bne_iff_ne, ne_eq, not_and_or, not_not] at h1
  rcases h1 with h | h
  · exact h
  · exact absurd h h2

theorem postCount_single_post : postCount [CrStep.post] = 1 := by decide

theorem crLoop_postCount_le (script : List HttpAttempt) :
    ∀ rc : Nat, rc < maxRetryCount →
      postCount (createRepositoryLoop rc script).2 ≤ maxRetryCount - rc := by
  induction script with
  | nil =>
    intro rc hrc
    simp [createRepositoryLoop, postCount]
  | cons attempt rest ih =>
    intro rc hrc
    have hone : postCount [CrStep.post] ≤ maxRetryCount - rc := by
      rw [postCount_single_post]
      omega
    cases attempt with
    | transport =>
      rw [crLoop_transport]
      exact hone
    | resp status body =>
      by_cases h1 : (status != 201 && status != 400) = true
      · rw [crLoop_other_status rc status body rest h1]
        exact hone
      · by_cases h2 : status = 400
        · subst h2
          by_cases h3 : isTransientGitlabRepoCreationErrMessage body = true
          · by_cases h4 : maxRetryCount ≤ rc + 1
            · rw [crLoop_transient_panic rc body rest h4 h3]
              exact hone
            · have hrc1 : rc + 1 < maxRetryCount := by omega
              rw [crLoop_transient_steps rc body rest hrc1 h3]
              have hmono := ih (rc + 1) hrc1
              have hsteps :
                  postCount
                    ([CrStep.post, CrStep.sleepMs sleepBeforeRetryMs] ++
                      (if strContains body gitlabRepoHasAlreadyBeenTaken then
                        [CrStep.deleteProject, CrStep.sleepMs sleepBeforeRetryMs]
                      else [])) = 1 := by
                split <;> decide
              simp only [postCount, List.countP_append] at hmono hsteps ⊢
              omega
          · have h3f : isTransientGitlabRepoCreationErrMessage body = false := by
              simpa using h3
            rw [crLoop_400_not_transient rc body rest h3f]
            exact hone
        · have h2o : status = 201 := status_201_of_guards status h1 h2
          subst h2o
          rw [crLoop_201]
          exact hone

theorem crLoop_retry_needs_transient (rc : Nat) (attempt : HttpAttempt)
    (rest : List HttpAttempt)
    (h : 2 ≤ postCount (createRepositoryLoop rc (attempt :: rest)).2) :
    ∃ body, attempt = HttpAttempt.resp 400 body ∧
      isTransientGitlabRepoCreationErrMessage body = true := by
  cases attempt with
  | transport =>
    rw [crLoop_transport] at h
    exact absurd h (by decide)
  | resp status body =>
    by_cases h1 : (status != 201 && status != 400) = true
    · rw [crLoop_other_status rc status body rest h1] at h
      exact absurd h (by decide)
    · by_cases h2 : status = 400
      · subst h2
        by_cases h3 : isTransientGitlabRepoCreationErrMessage body = true
        · exact ⟨body, rfl, h3⟩
        · have h3f : isTransientGitlabRepoCreationErrMessage body = false := by
            simpa using h3
          rw [crLoop_400_not_transient rc body rest h3f] at h
          exact absurd h (by decide)
      · have h2o : status = 201 := status_201_of_guards status h1 h2
        subst h2o
        rw [crLoop_201 rc body rest] at h
        exact absurd h (by decide)

theorem crLoop_sleep_fixed (script : List HttpAttempt) :
    ∀ (rc ms : Nat), CrStep.sleepMs ms ∈ (createRepositoryLoop rc script).2 →
      ms = sleepBeforeRetryMs := by
  induction script with
  | nil =>
    intro rc ms h
    simp [createRepositoryLoop] at h
  | cons attempt rest ih =>
    intro rc ms h
    cases attempt with
    | transport =>
      rw [crLoop_transport] at h
      simp at h
    | resp status body =>
      by_cases h1 : (status != 201 && status != 400) = true
      · rw [crLoop_other_status rc status body rest h1] at h
        simp at h
      · by_cases h2 : status = 400
        · subst h2
          by_cases h3 : isTransientGitlabRepoCreationErrMessage body = true
          · by_cases h4 : maxRetryCount ≤ rc + 1
            · rw [crLoop_transient_panic rc body rest h4 h3] at h
              simp at h
            · have hrc1 : rc + 1 < maxRetryCount := by omega
              rw [crLoop_transient_steps rc body rest hrc1 h3] at h
              rcases List.mem_append.mp h with h | h
              · rcases List.mem_append.mp h with h | h
                · simp at h
                  exact h
                · split at h
                  · simp at h
                    exact h
                  · simp at h
              · exact ih (rc + 1) ms h
          · have h3f : isTransientGitlabRepoCreationErrMessage body = false := by
              simpa using h3
            rw [crLoop_400_not_transient rc body rest h3f] at h
            simp at h
        · have h2o : status = 201 := status_201_of_guards status h1 h2
          subst h2o
          rw [crLoop_201] at h
          simp at h

theorem crLoop_delete_needs_taken (script : List HttpAttempt) :
    ∀ rc : Nat, CrStep.deleteProject ∈ (createRepositoryLoop rc script).2 →
      ∃ body, HttpAttempt.resp 400 body ∈ script ∧
        strContains body gitlabRepoHasAlreadyBeenTaken = true := by
  induction script with
  | nil =>
    intro rc h
    simp [createRepositoryLoop] at h
  | cons attempt rest ih =>
    intro rc h
    cases attempt with
    | transport =>
      rw [crLoop_transport] at h
      simp at h
    | resp status body =>
      by_cases h1 : (status != 201 && status != 400) = true
      · rw [crLoop_other_status rc status body rest h1] at h
        simp at h
      · by_cases h2 : status = 400
        · subst h2
          by_cases h3 : isTransientGitlabRepoCreationErrMessage body = true
          · by_cases h4 : maxRetryCount ≤ rc + 1
            · rw [crLoop_transient_panic rc body rest h4 h3] at h
              simp at h
            · have hrc1 : rc + 1 < maxRetryCount := by omega
              rw [crLoop_transient_steps rc body rest hrc1 h3] at h
              rcases List.mem_append.mp h with h | h
              · rcases List.mem_append.mp h with h | h
                · simp at h
                · split at h
                  · rename_i hcond
                    exact ⟨body, List.mem_cons_self _ _, by simpa using hcond⟩
                  · simp at h
              · rcases ih (rc + 1) h with ⟨b, hb, hbt⟩
                exact ⟨b, List.mem_cons_of_mem _ hb, hbt⟩
          · have h3f : isTransientGitlabRepoCreationErrMessage body = false := by
              simpa using h3
            rw [crLoop_400_not_transient rc body rest h3f] at h
            simp at h
        · have h2o : status = 201 := status_201_of_guards status h1 h2
          subst h2o
          rw [crLoop_201] at h
          simp at h

/-- C3 (amended): `CreateRepository` retries only on a 400-status response
whose body contains a recognized transient message; at most 20 creation
attempts are ever issued, each retry sleeps the fixed 1000 ms, and the
self-healing project deletion happens only when — and, on the already-taken
message, directly before the wait preceding — a retried already-taken
response; a transport error or a status other than 201/400 is returned as an
error; but a 400 response with an unrecognized message is treated as success
and returns nil rather than an error. -/
theorem gitlabCreateRepository_retry_policy :
    (∀ rest, gitlabCreateRepository (HttpAttempt.transport :: rest) =
      (CrOutcome.err (GoErr.msgError "failed to create project"), [CrStep.post])) ∧
    (∀ (status : Nat) (body : String) rest, (status != 201 && status != 400) = true →
      gitlabCreateRepository (HttpAttempt.resp status body :: rest) =
        (CrOutcome.err (GoErr.msgError "failed to create project"), [CrStep.post])) ∧
    (∀ (body : String) rest, isTransientGitlabRepoCreationErrMessage body = false →
      gitlabCreateRepository (HttpAttempt.resp 400 body :: rest) =
        (CrOutcome.ok, [CrStep.post])) ∧
    (∀ (body : String) rest, gitlabCreateRepository (HttpAttempt.resp 201 body :: rest) =
      (CrOutcome.ok, [CrStep.post])) ∧
    (∀ script, postCount (gitlabCreateRepository script).2 ≤ maxRetryCount) ∧
    (∀ attempt rest, 2 ≤ postCount (gitlabCreateRepository (attempt :: rest)).2 →
      ∃ body, attempt = HttpAttempt.resp 400 body ∧
        isTransientGitlabRepoCreationErrMessage body = true) ∧
    (∀ script ms, CrStep.sleepMs ms ∈ (gitlabCreateRepository script).2 →
      ms = sleepBeforeRetryMs) ∧
    (∀ script, CrStep.deleteProject ∈ (gitlabCreateRepository script).2 →
      ∃ body, HttpAttempt.resp 400 body ∈ script ∧
        strContains body gitlabRepoHasAlreadyBeenTaken = true) ∧
    (∀ (body : String) rest, isTransientGitlabRepoCreationErrMessage body = true →
      strContains body gitlabRepoHasAlreadyBeenTaken = true →
      (gitlabCreateRepository (HttpAttempt.resp 400 body :: rest)).2 =
        [CrStep.post, CrStep.sleepMs sleepBeforeRetryMs, CrStep.deleteProject,
          CrStep.sleepMs sleepBeforeRetryMs] ++ (createRepositoryLoop 1 rest).2) := by
  refine ⟨fun rest => crLoop_transport 0 rest,
    fun status body rest h => crLoop_other_status 0 status body rest h,
    fun body rest h => crLoop_400_not_transient 0 body rest h,
    fun body rest => crLoop_201 0 body rest,
    fun script => ?_,
    fun attempt rest h => crLoop_retry_needs_transient 0 attempt rest h,
    fun script ms h => crLoop_sleep_fixed script 0 ms h,
    fun script h => crLoop_delete_needs_taken script 0 h,
    fun body rest ht htaken => ?_⟩
  · have := crLoop_postCount_le script 0 (by decide)
    simpa using this
  · rw [gitlabCreateRepository,
      crLoop_transient_steps 0 body rest (by decide) ht]
    simp [htaken]

/-- C3 (witness for the amended theorem): the policy instantiated at
concrete inputs — a 500 response is an error, an unrecognized 400 is a
success, an already-taken 400 deletes the project before retrying and a
following 201 succeeds with two attempts. -/
theorem gitlabCreateRepository_retry_policy_witness :
    gitlabCreateRepository [HttpAttempt.resp 500 "boom"] =
      (CrOutcome.err (GoErr.msgError "failed to create project"), [CrStep.post]) ∧
    gitlabCreateRepository [HttpAttempt.resp 400 "name is invalid"] =
      (CrOutcome.ok, [CrStep.post]) ∧
    (gitlabCreateRepository
      [HttpAttempt.resp 400 "Path has already been taken", HttpAttempt.resp 201 ""]).2 =
      [CrStep.post, CrStep.sleepMs sleepBeforeRetryMs, CrStep.deleteProject,
        CrStep.sleepMs sleepBeforeRetryMs] ++ (createRepositoryLoop 1 [HttpAttempt.resp 201 ""]).2 := by
  refine ⟨?_, ?_, ?_⟩
  · exact gitlabCreateRepository_retry_policy.2.1 500 "boom" [] (by decide)
  · exact gitlabCreateRepository_retry_policy.2.2.1 "name is invalid" [] (by decide)
  · exact gitlabCreateRepository_retry_policy.2.2.2.2.2.2.2.2
      "Path has already been taken" [HttpAttempt.resp 201 ""] (by decide) (by decide)

theorem isPrefixOf_append_self (tag rest : List Char) :
    tag.isPrefixOf (tag ++ rest) = true := by
  induction tag with
  | nil => simp [List.isPrefixOf]
  | cons c t ih => simp [List.isPrefixOf, ih]

theorem takeWhile_ws_append (sp : List Char) (c : Char) (d : List Char)
    (hsp : sp.all isWsChar = true) (hc : isWsChar c = false) :
    (sp ++ c :: d).takeWhile isWsChar = sp := by
  induction sp with
  | nil => simp [List.takeWhile_cons, hc]
  | cons a t ih =>
    rw [List.all_cons, Bool.and_eq_true] at hsp
    simp [List.takeWhile_cons, hsp.1, ih hsp.2]

theorem matchTagged_none_of_tag_mismatch (tag line : List Char)
    (h : tag.isPrefixOf line = false) : matchTagged tag line = none := by
  rw [matchTagged, h]
  rfl

theorem matchDated_none_of_tag_mismatch (tag line : List Char)
    (h : tag.isPrefixOf line = false) : matchDated tag line = none := by
  rw [matchDated, h]
  rfl

theorem parseTime_none_of_tag_mismatch (tag line : List Char)
    (h : tag.isPrefixOf line = false) :
    parseTimeFromLocalCommitOutput tag line = Except.ok none := by
  rw [parseTimeFromLocalCommitOutput, matchDated_none_of_tag_mismatch tag line h]

theorem matchTagged_pos (tag sp : List Char) (c : Char) (d : List Char)
    (hsp : sp.all isWsChar = true) (hne : sp ≠ []) (hc : isWsChar c = false) :
    matchTagged tag (tag ++ (sp ++ c :: d)) = some (c :: d) := by
  have h1 : tag.isPrefixOf (tag ++ (sp ++ c :: d)) = true := isPrefixOf_append_self _ _
  have h2 : (tag ++ (sp ++ c :: d)).drop tag.length = sp ++ c :: d := List.drop_left _ _
  have h3 : (sp ++ c :: d).takeWhile isWsChar = sp := takeWhile_ws_append sp c d hsp hc
  have h4 : (sp.length == 0) = false := by
    have : sp.length ≠ 0 := by simpa using hne
    simpa using this
  have h5 : (sp ++ c :: d).length > sp.length := by simp
  have h6 : (sp ++ c :: d).drop sp.length = c :: d := List.drop_left _ _
  rw [matchTagged, h1]
  simp only [if_true]
  rw [h2, h3, h4]
  simp only [Bool.false_eq_true, if_false, h5, if_true, h6]

theorem matchDated_pos (tag : List Char) (p0 : Char) (pr : List Char)
    (d1 d2 d3 d4 : Char) (hp0 : isWsChar p0 = false)
    (hd : ([d1, d2, d3, d4].all Char.isDigit) = true) :
    matchDated tag (tag ++ (' ' :: (p0 :: (pr ++ [d1, d2, d3, d4])))) =
      some (p0 :: pr, [d1, d2], [d3, d4]) := by
  have h1 : tag.isPrefixOf (tag ++ (' ' :: (p0 :: (pr ++ [d1, d2, d3, d4])))) = true :=
    isPrefixOf_append_self _ _
  have h2 : (tag ++ (' ' :: (p0 :: (pr ++ [d1, d2, d3, d4])))).drop tag.length =
      ' ' :: (p0 :: (pr ++ [d1, d2, d3, d4])) := List.drop_left _ _
  have h3 : (' ' :: (p0 :: (pr ++ [d1, d2, d3, d4]))).takeWhile isWsChar = [' '] := by
    have h := takeWhile_ws_append [' '] p0 (pr ++ [d1, d2, d3, d4]) (by decide) hp0
    simpa using h
  have hn : (' ' :: (p0 :: (pr ++ [d1, d2, d3, d4]))).length = pr.length + 6 := by
    simp
  have hdrop4 : (' ' :: (p0 :: (pr ++ [d1, d2, d3, d4]))).drop (pr.length + 2) =
      [d1, d2, d3, d4] := by
    show ((' ' :: p0 :: pr) ++ [d1, d2, d3, d4]).drop (pr.length + 2) = [d1, d2, d3, d4]
    have hl : pr.length + 2 = (' ' :: p0 :: pr).length := by simp
    rw [hl, List.drop_left]
  have hdrop1 : (' ' :: (p0 :: (pr ++ [d1, d2, d3, d4]))).drop 1 =
      p0 :: (pr ++ [d1, d2, d3, d4]) := rfl
  have htake : (p0 :: (pr ++ [d1, d2, d3, d4])).take (pr.length + 1) = p0 :: pr := by
    show ((p0 :: pr) ++ [d1, d2, d3, d4]).take (pr.length + 1) = p0 :: pr
    have hl : pr.length + 1 = (p0 :: pr).length := by simp
    rw [hl, List.take_left]
  rw [matchDated, h1]
  simp only [if_true]
  rw [h2, h3, hn]
  rw [show pr.length + 6 - 4 = pr.length + 2 from by omega, hdrop4]
  rw [show (([' '] : List Char).length == 0) = false from rfl]
  rw [if_neg (by omega : ¬ pr.length + 6 < 6)]
  rw [hd]
  simp only [Bool.false_eq_true, if_false, if_true]
  rw [show min ([' '] : List Char).length (pr.length + 6 - 5) = 1 from by
    simp only [List.length_singleton]
    omega]
  rw [hdrop1]
  rw [show (p0 :: (pr ++ [d1, d2, d3, d4])).length - 4 = pr.length + 1 from by simp, htake]
  rfl

theorem splitOnChar_no_sep (sep : Char) (l : List Char) (h : ¬ sep ∈ l) :
    splitOnChar sep l = [l] := by
  induction l with
  | nil => rfl
  | cons c t ih =>
    rw [List.mem_cons, not_or] at h
    have hc : (c == sep) = false := by
      rw [beq_eq_false_iff_ne]
      exact fun he => h.1 he.symm
    rw [splitOnChar]
    simp only [ih h.2, hc, Bool.false_eq_true, if_false]

theorem splitOnChar_append_sep (sep : Char) (l x : List Char) (h : ¬ sep ∈ l) :
    splitOnChar sep (l ++ sep :: x) = l :: splitOnChar sep x := by
  induction l with
  | nil =>
    rw [List.nil_append, splitOnChar]
    simp
  | cons c t ih =>
    rw [List.mem_cons, not_or] at h
    have hc : (c == sep) = false := by
      rw [beq_eq_false_iff_ne]
      exact fun he => h.1 he.symm
    rw [List.cons_append, splitOnChar]
    simp only [ih h.2, hc, Bool.false_eq_true, if_false]

theorem splitOnChar_joinLinesNl (lines : List (List Char))
    (hnl : ∀ l ∈ lines, ¬ '\n' ∈ l) (hne : lines ≠ []) :
    splitOnChar '\n' (joinLinesNl lines) = lines := by
  induction lines with
  | nil => exact absurd rfl hne
  | cons l rest ih =>
    cases rest with
    | nil =>
      show splitOnChar '\n' l = [l]
      exact splitOnChar_no_sep '\n' l (hnl l (List.mem_cons_self _ _))
    | cons l2 r2 =>
      have hj : joinLinesNl (l :: l2 :: r2) = l ++ '\n' :: joinLinesNl (l2 :: r2) := rfl
      rw [hj, splitOnChar_append_sep '\n' l _ (hnl l (List.mem_cons_self _ _)),
        ih (fun x hx => hnl x (List.mem_cons_of_mem _ hx)) (by simp)]

theorem parseLocalLines_skip (line : List Char) (rest : List (List Char))
    (md : CommitMetadata) (buf : List (List Char))
    (hA : matchTagged "Author:".data line = none)
    (hC : matchTagged "Commit:".data line = none)
    (hAD : matchDated "AuthorDate:".data line = none)
    (hCD : matchDated "CommitDate:".data line = none)
    (hmsg : "    ".data.isPrefixOf line = false) :
    parseLocalLines (line :: rest) md buf = parseLocalLines rest md buf := by
  rw [parseLocalLines, hA, hC, parseTimeFromLocalCommitOutput, hAD,
    parseTimeFromLocalCommitOutput, hCD]
  simp only [hmsg, Bool.false_eq_true, if_false]

theorem parseLocalLines_author (line : List Char) (rest : List (List Char))
    (md : CommitMetadata) (buf : List (List Char)) (capture : List Char)
    (hA : matchTagged "Author:".data line = some capture) :
    parseLocalLines (line :: rest) md buf =
      parseLocalLines rest { md with author := capture } buf := by
  rw [parseLocalLines, hA]

theorem parseLocalLines_commit (line : List Char) (rest : List (List Char))
    (md : CommitMetadata) (buf : List (List Char)) (capture : List Char)
    (hA : matchTagged "Author:".data line = none)
    (hC : matchTagged "Commit:".data line = some capture) :
    parseLocalLines (line :: rest) md buf =
      parseLocalLines rest { md with commit := capture } buf := by
  rw [parseLocalLines, hA, hC]

theorem parseLocalLines_authorDate (line : List Char) (rest : List (List Char))
    (md : CommitMetadata) (buf : List (List Char)) (t : GoTime)
    (hA : matchTagged "Author:".data line = none)
    (hC : matchTagged "Commit:".data line = none)
    (hAD : parseTimeFromLocalCommitOutput "AuthorDate:".data line = Except.ok (some t)) :
    parseLocalLines (line :: rest) md buf =
      parseLocalLines rest { md with authorDate := some t } buf := by
  rw [parseLocalLines, hA, hC, hAD]

theorem parseLocalLines_authorDate_error (line : List Char) (rest : List (List Char))
    (md : CommitMetadata) (buf : List (List Char)) (e : GoErr)
    (hA : matchTagged "Author:".data line = none)
    (hC : matchTagged "Commit:".data line = none)
    (hAD : parseTimeFromLocalCommitOutput "AuthorDate:".data line = Except.error e) :
    parseLocalLines (line :: rest) md buf = Except.error e := by
  rw [parseLocalLines, hA, hC, hAD]

theorem parseLocalLines_commitDate (line : List Char) (rest : List (List Char))
    (md : CommitMetadata) (buf : List (List Char)) (t : GoTime)
    (hA : matchTagged "Author:".data line = none)
    (hC : matchTagged "Commit:".data line = none)
    (hAD : parseTimeFromLocalCommitOutput "AuthorDate:".data line = Except.ok none)
    (hCD : parseTimeFromLocalCommitOutput "CommitDate:".data line = Except.ok (some t)) :
    parseLocalLines (line :: rest) md buf =
      parseLocalLines rest { md with commitDate := some t } buf := by
  rw [parseLocalLines, hA, hC, hAD, hCD]

theorem parseLocalLines_commitDate_error (line : List Char) (rest : List (List Char))
    (md : CommitMetadata) (buf : List (List Char)) (e : GoErr)
    (hA : matchTagged "Author:".data line = none)
    (hC : matchTagged "Commit:".data line = none)
    (hAD : parseTimeFromLocalCommitOutput "AuthorDate:".data line = Except.ok none)
    (hCD : parseTimeFromLocalCommitOutput "CommitDate:".data line = Except.error e) :
    parseLocalLines (line :: rest) md buf = Except.error e := by
  rw [parseLocalLines, hA, hC, hAD, hCD]

theorem parseLocalLines_message (line : List Char) (rest : List (List Char))
    (md : CommitMetadata) (buf : List (List Char))
    (hA : matchTagged "Author:".data line = none)
    (hC : matchTagged "Commit:".data line = none)
    (hAD : matchDated "AuthorDate:".data line = none)
    (hCD : matchDated "CommitDate:".data line = none)
    (hmsg : "    ".data.isPrefixOf line = true) :
    parseLocalLines (line :: rest) md buf =
      parseLocalLines rest md (buf ++ [trimCutset [' ', '\t'] line]) := by
  rw [parseLocalLines, hA, hC, parseTimeFromLocalCommitOutput, hAD,
    parseTimeFromLocalCommitOutput, hCD]
  simp only [hmsg, if_true]

theorem parseLocalLines_msgBlock (mls : List (List Char)) :
    ∀ (md : CommitMetadata) (buf : List (List Char)),
      parseLocalLines (mls.map (fun l => "    ".data ++ l)) md buf =
        Except.ok (md, buf ++ mls.map (fun l => trimCutset [' ', '\t'] ("    ".data ++ l))) := by
  induction mls with
  | nil =>
    intro md buf
    simp [parseLocalLines]
  | cons l tl ih =>
    intro md buf
    rw [List.map_cons]
    rw [parseLocalLines_message _ _ md buf
      (matchTagged_none_of_tag_mismatch _ _ (by simp [List.isPrefixOf]))
      (matchTagged_none_of_tag_mismatch _ _ (by simp [List.isPrefixOf]))
      (matchDated_none_of_tag_mismatch _ _ (by simp [List.isPrefixOf]))
      (matchDated_none_of_tag_mismatch _ _ (by simp [List.isPrefixOf]))
      (isPrefixOf_append_self _ _)]
    rw [ih]
    simp

theorem headNonWs_elim (l : List Char) (h : headNonWs l = true) :
    ∃ c d, l = c :: d ∧ isWsChar c = false := by
  cases l with
  | nil => simp [headNonWs] at h
  | cons c d => exact ⟨c, d, rfl, by simpa [headNonWs] using h⟩

theorem headNonWs_display (name email : List Char) (h : headNonWs name = true) :
    headNonWs (displayNameEmail name email) = true := by
  obtain ⟨c0, d, rfl, hc⟩ := headNonWs_elim name h
  simp [displayNameEmail, headNonWs, hc]

theorem matchTagged_fiveSpace (tag payload : List Char) (hp : headNonWs payload = true) :
    matchTagged tag (tag ++ [' ', ' ', ' ', ' ', ' '] ++ payload) = some payload := by
  obtain ⟨c0, d, rfl, hc⟩ := headNonWs_elim payload hp
  have h := matchTagged_pos tag [' ', ' ', ' ', ' ', ' '] c0 d (by decide) (by simp) hc
  simpa [List.append_assoc] using h

theorem parseTime_dateLine (tag pfx : List Char) (d1 d2 d3 d4 : Char)
    (hp : headNonWs pfx = true)
    (hd : ([d1, d2, d3, d4].all Char.isDigit) = true) :
    parseTimeFromLocalCommitOutput tag (tag ++ ' ' :: (pfx ++ [d1, d2, d3, d4])) =
      (match parseRFC3339 (pfx ++ [d1, d2, ':', d3, d4]) with
       | none => Except.error (GoErr.wrapped "failed to parse time as RFC3339"
           (GoErr.timeParseError (pfx ++ [d1, d2, ':', d3, d4])))
       | some t => Except.ok (some t)) := by
  obtain ⟨p0, pr, rfl, hp0⟩ := headNonWs_elim pfx hp
  have hm := matchDated_pos tag p0 pr d1 d2 d3 d4 hp0 hd
  rw [parseTimeFromLocalCommitOutput, List.cons_append, hm]
  show (match parseRFC3339 ((p0 :: pr) ++ [d1, d2] ++ ':' :: [d3, d4]) with
       | none => Except.error (GoErr.wrapped "failed to parse time as RFC3339"
           (GoErr.timeParseError ((p0 :: pr) ++ [d1, d2] ++ ':' :: [d3, d4])))
       | some t => Except.ok (some t)) = _
  have hshape : ((p0 :: pr) ++ [d1, d2] ++ ':' :: [d3, d4] : List Char) =
      (p0 :: pr) ++ [d1, d2, ':', d3, d4] := by
    simp
  rw [hshape]

theorem nl_not_mem_digits (l : List Char) (h : l.all Char.isDigit = true) :
    ¬ '\n' ∈ l := by
  intro hm
  have hd := List.all_eq_true.mp h _ hm
  exact absurd hd (by decide)

theorem not_mem_append_char (a : Char) (x y : List Char) (hx : ¬ a ∈ x) (hy : ¬ a ∈ y) :
    ¬ a ∈ x ++ y := by
  intro h
  rcases List.mem_append.mp h with h | h
  exacts [hx h, hy h]

theorem not_mem_cons_char (a c : Char) (y : List Char) (hne : a ≠ c) (hy : ¬ a ∈ y) :
    ¬ a ∈ c :: y := by
  intro h
  rcases List.mem_cons.mp h with h | h
  exacts [hne h, hy h]

theorem nl_not_mem_display (name email : List Char) (hn : ¬ '\n' ∈ name)
    (he : ¬ '\n' ∈ email) : ¬ '\n' ∈ displayNameEmail name email :=
  not_mem_append_char _ _ _
    (not_mem_append_char _ _ _ (not_mem_append_char _ _ _ hn (by decide)) he)
    (by decide)

/-- C4 (amended): for every well-formed commit observed both as local
textual log output and as the structured remote response, the two parsers
produce `CommitMetadata` values agreeing on Author, AuthorDate, Commit and
CommitDate — the `"Name <email>"` display form and the reconstructed-offset
timestamps coincide — but not necessarily on Message, which the remote
parser leaves empty; the parsers are interchangeable only up to the Message
field. -/
theorem commit_parsers_agree_except_message (c : CommitFacts) (hwf : c.wf)
    (tA tC : GoTime)
    (hA : parseRFC3339 c.aDateRfc = some tA)
    (hC : parseRFC3339 c.cDateRfc = some tC) :
    ∃ mdL mdR,
      parseLocalCommitMetadata c.localShowOutput = Except.ok mdL ∧
      gitlabCommitResponseToMetadata c.remoteResponse = Except.ok mdR ∧
      mdL.author = mdR.author ∧ mdL.authorDate = mdR.authorDate ∧
      mdL.commit = mdR.commit ∧ mdL.commitDate = mdR.commitDate ∧
      mdL.author = displayNameEmail c.name c.email ∧
      mdL.authorDate = some tA ∧ mdL.commitDate = some tC := by
  obtain ⟨hnlHash, hnlName, hnlEmail, hnlCname, hnlCemail, hnlA, hnlC, hnlMsg,
    hhN, hhCN, hhA, hhC, hdA, hdC⟩ := hwf
  have hRemote : gitlabCommitResponseToMetadata c.remoteResponse =
      Except.ok { author := displayNameEmail c.name c.email
                  authorDate := some tA
                  commit := displayNameEmail c.cname c.cemail
                  commitDate := some tC
                  message := [] } := by
    rw [gitlabCommitResponseToMetadata]
    rw [show c.remoteResponse.authoredDate = c.aDateRfc from rfl, hA]
    rw [show c.remoteResponse.committedDate = c.cDateRfc from rfl, hC]
    rfl
  have hsplit : splitOnChar '\n' c.localShowOutput = c.localShowLines := by
    apply splitOnChar_joinLinesNl
    · intro l hl
      rw [CommitFacts.localShowLines] at hl
      rcases List.mem_append.mp hl with h6 | hmap
      · simp only [List.mem_cons, List.not_mem_nil, or_false] at h6
        rcases h6 with rfl | rfl | rfl | rfl | rfl | rfl
        · exact not_mem_append_char _ _ _ (by decide) hnlHash
        · exact not_mem_append_char _ _ _ (by decide)
            (nl_not_mem_display _ _ hnlName hnlEmail)
        · exact not_mem_append_char _ _ _ (by decide)
            (not_mem_cons_char _ _ _ (by decide)
              (not_mem_append_char _ _ _ hnlA (nl_not_mem_digits _ hdA)))
        · exact not_mem_append_char _ _ _ (by decide)
            (nl_not_mem_display _ _ hnlCname hnlCemail)
        · exact not_mem_append_char _ _ _ (by decide)
            (not_mem_cons_char _ _ _ (by decide)
              (not_mem_append_char _ _ _ hnlC (nl_not_mem_digits _ hdC)))
        · simp
      · obtain ⟨x, hx, rfl⟩ := List.mem_map.mp hmap
        exact not_mem_append_char _ _ _ (by decide) (hnlMsg x hx)
    · rw [CommitFacts.localShowLines]
      simp
  have hLocal : parseLocalCommitMetadata c.localShowOutput =
      Except.ok { author := displayNameEmail c.name c.email
                  authorDate := some tA
                  commit := displayNameEmail c.cname c.cemail
                  commitDate := some tC
                  message := joinLinesNl (c.msgLines.map
                    (fun l => trimCutset [' ', '\t'] ("    ".data ++ l))) } := by
    have hflat : c.localShowLines =
        ("commit ".data ++ c.hash) ::
          ("Author:".data ++ [' ', ' ', ' ', ' ', ' '] ++ displayNameEmail c.name c.email) ::
            ("AuthorDate:".data ++ ' ' :: c.aDateLocal) ::
              ("Commit:".data ++ [' ', ' ', ' ', ' ', ' '] ++
                  displayNameEmail c.cname c.cemail) ::
                ("CommitDate:".data ++ ' ' :: c.cDateLocal) ::
                  [] :: (c.msgLines.map (fun l => "    ".data ++ l)) := rfl
    rw [parseLocalCommitMetadata, hsplit, hflat]
    rw [parseLocalLines_skip _ _ _ _
      (matchTagged_none_of_tag_mismatch _ _ (by simp [List.isPrefixOf]))
      (matchTagged_none_of_tag_mismatch _ _ (by simp [List.isPrefixOf]))
      (matchDated_none_of_tag_mismatch _ _ (by simp [List.isPrefixOf]))
      (matchDated_none_of_tag_mismatch _ _ (by simp [List.isPrefixOf]))
      (by simp [List.isPrefixOf])]
    rw [parseLocalLines_author _ _ _ _ _
      (matchTagged_fiveSpace _ _ (headNonWs_display _ _ hhN))]
    rw [parseLocalLines_authorDate _ _ _ _ tA
      (matchTagged_none_of_tag_mismatch _ _ (by simp [List.isPrefixOf]))
      (matchTagged_none_of_tag_mismatch _ _ (by simp [List.isPrefixOf]))
      (by rw [CommitFacts.aDateLocal, parseTime_dateLine _ _ _ _ _ _ hhA hdA,
        show c.aPfx ++ [c.ah1, c.ah2, ':', c.am1, c.am2] = c.aDateRfc from rfl, hA])]
    rw [parseLocalLines_commit _ _ _ _ _
      (matchTagged_none_of_tag_mismatch _ _ (by simp [List.isPrefixOf]))
      (matchTagged_fiveSpace _ _ (headNonWs_display _ _ hhCN))]
    rw [parseLocalLines_commitDate _ _ _ _ tC
      (matchTagged_none_of_tag_mismatch _ _ (by simp [List.isPrefixOf]))
      (matchTagged_none_of_tag_mismatch _ _ (by simp [List.isPrefixOf]))
      (parseTime_none_of_tag_mismatch _ _ (by simp [List.isPrefixOf]))
      (by rw [CommitFacts.cDateLocal, parseTime_dateLine _ _ _ _ _ _ hhC hdC,
        show c.cPfx ++ [c.ch1, c.ch2, ':', c.cm1, c.cm2] = c.cDateRfc from rfl, hC])]
    rw [parseLocalLines_skip _ _ _ _
      (matchTagged_none_of_tag_mismatch _ _ (by simp [List.isPrefixOf]))
      (matchTagged_none_of_tag_mismatch _ _ (by simp [List.isPrefixOf]))
      (matchDated_none_of_tag_mismatch _ _ (by simp [List.isPrefixOf]))
      (matchDated_none_of_tag_mismatch _ _ (by simp [List.isPrefixOf]))
      (by simp [List.isPrefixOf])]
    rw [parseLocalLines_msgBlock]
    simp
  exact ⟨_, _, hLocal, hRemote, rfl, rfl, rfl, rfl, rfl, rfl, rfl⟩

/-- C4 (witness for the amended theorem): the agreement instantiated at the
concrete counterexample commit, whose hypotheses hold by computation. -/
theorem commit_parsers_agree_except_message_witness :
    ∃ mdL mdR,
      parseLocalCommitMetadata counterexampleCommit.localShowOutput = Except.ok mdL ∧
      gitlabCommitResponseToMetadata counterexampleCommit.remoteResponse = Except.ok mdR ∧
      mdL.author = mdR.author ∧ mdL.authorDate = mdR.authorDate ∧
      mdL.commit = mdR.commit ∧ mdL.commitDate = mdR.commitDate ∧
      mdL.author = displayNameEmail counterexampleCommit.name counterexampleCommit.email ∧
      mdL.authorDate = some counterexampleTime ∧
      mdL.commitDate = some counterexampleTime :=
  commit_parsers_agree_except_message counterexampleCommit
    (by rw [CommitFacts.wf]; decide) _ _ (by decide) (by decide)

/-- C6: for a metadata line `AuthorDate: <prefix>HHMM` or
`CommitDate: <prefix>HHMM` whose trailing four characters are digits, the
local parser reconstructs the timestamp by reinserting a colon between the
two trailing digit pairs and parses it as RFC3339: when the reconstruction
parses, the resulting date field equals the RFC3339 reading of
`<prefix>HH:MM`; when it fails to parse, `ParseLocalCommitMetadata` returns
an error. -/
theorem authorDate_offset_reconstruction (pfx : List Char) (a1 a2 a3 a4 : Char)
    (hp : headNonWs pfx = true) (hnl : ¬ '\n' ∈ pfx)
    (hd : ([a1, a2, a3, a4].all Char.isDigit) = true) :
    (parseLocalCommitMetadata ("AuthorDate:".data ++ ' ' :: (pfx ++ [a1, a2, a3, a4])) =
      match parseRFC3339 (pfx ++ [a1, a2, ':', a3, a4]) with
      | none => Except.error (GoErr.wrapped "failed to parse time as RFC3339"
          (GoErr.timeParseError (pfx ++ [a1, a2, ':', a3, a4])))
      | some t => Except.ok (mdOnlyAuthorDate t)) ∧
    (parseLocalCommitMetadata ("CommitDate:".data ++ ' ' :: (pfx ++ [a1, a2, a3, a4])) =
      match parseRFC3339 (pfx ++ [a1, a2, ':', a3, a4]) with
      | none => Except.error (GoErr.wrapped "failed to parse time as RFC3339"
          (GoErr.timeParseError (pfx ++ [a1, a2, ':', a3, a4])))
      | some t => Except.ok (mdOnlyCommitDate t)) := by
  have hnlLine : ∀ tag : List Char, ¬ '\n' ∈ tag →
      ¬ '\n' ∈ (tag ++ ' ' :: (pfx ++ [a1, a2, a3, a4])) := by
    intro tag htag
    exact not_mem_append_char _ _ _ htag
      (not_mem_cons_char _ _ _ (by decide)
        (not_mem_append_char _ _ _ hnl (nl_not_mem_digits _ hd)))
  constructor
  · rw [parseLocalCommitMetadata,
      splitOnChar_no_sep '\n' _ (hnlLine "AuthorDate:".data (by decide))]
    cases hres : parseRFC3339 (pfx ++ [a1, a2, ':', a3, a4]) with
    | none =>
      rw [parseLocalLines_authorDate_error _ _ _ _ _
        (matchTagged_none_of_tag_mismatch _ _ (by simp [List.isPrefixOf]))
        (matchTagged_none_of_tag_mismatch _ _ (by simp [List.isPrefixOf]))
        (by rw [parseTime_dateLine _ _ _ _ _ _ hp hd, hres])]
    | some t =>
      rw [parseLocalLines_authorDate _ _ _ _ t
        (matchTagged_none_of_tag_mismatch _ _ (by simp [List.isPrefixOf]))
        (matchTagged_none_of_tag_mismatch _ _ (by simp [List.isPrefixOf]))
        (by rw [parseTime_dateLine _ _ _ _ _ _ hp hd, hres])]
      rfl
  · rw [parseLocalCommitMetadata,
      splitOnChar_no_sep '\n' _ (hnlLine "CommitDate:".data (by decide))]
    cases hres : parseRFC3339 (pfx ++ [a1, a2, ':', a3, a4]) with
    | none =>
      rw [parseLocalLines_commitDate_error _ _ _ _ _
        (matchTagged_none_of_tag_mismatch _ _ (by simp [List.isPrefixOf]))
        (matchTagged_none_of_tag_mismatch _ _ (by simp [List.isPrefixOf]))
        (parseTime_none_of_tag_mismatch _ _ (by simp [List.isPrefixOf]))
        (by rw [parseTime_dateLine _ _ _ _ _ _ hp hd, hres])]
    | some t =>
      rw [parseLocalLines_commitDate _ _ _ _ t
        (matchTagged_none_of_tag_mismatch _ _ (by simp [List.isPrefixOf]))
        (matchTagged_none_of_tag_mismatch _ _ (by simp [List.isPrefixOf]))
        (parseTime_none_of_tag_mismatch _ _ (by simp [List.isPrefixOf]))
        (by rw [parseTime_dateLine _ _ _ _ _ _ hp hd, hres])]
      rfl

/-- C6 (witness): the reconstruction applied to the concrete line
`AuthorDate: 2024-05-01T10:14:09+0200` yields the RFC3339 reading of
`2024-05-01T10:14:09+02:00`; applied to `AuthorDate: garbage1234` — whose
reconstruction `garbage12:34` fails to parse — the parser errors. -/
theorem authorDate_offset_reconstruction_witness :
    parseLocalCommitMetadata "AuthorDate: 2024-05-01T10:14:09+0200".data =
      Except.ok (mdOnlyAuthorDate counterexampleTime) ∧
    parseLocalCommitMetadata "AuthorDate: garbage1234".data =
      Except.error (GoErr.wrapped "failed to parse time as RFC3339"
        (GoErr.timeParseError "garbage12:34".data)) := by
  constructor
  · have h := (authorDate_offset_reconstruction "2024-05-01T10:14:09+".data '0' '2' '0' '0'
      (by decide) (by decide) (by decide)).1
    rw [show "AuthorDate: 2024-05-01T10:14:09+0200".data =
      "AuthorDate:".data ++ ' ' :: ("2024-05-01T10:14:09+".data ++ ['0', '2', '0', '0'])
      from by decide]
    rw [h, show parseRFC3339 ("2024-05-01T10:14:09+".data ++ ['0', '2', ':', '0', '0']) =
      some counterexampleTime from by decide]
  · have h := (authorDate_offset_reconstruction "garbage".data '1' '2' '3' '4'
      (by decide) (by decide) (by decide)).1
    rw [show "AuthorDate: garbage1234".data =
      "AuthorDate:".data ++ ' ' :: ("garbage".data ++ ['1', '2', '3', '4'])
      from by decide]
    rw [h, show parseRFC3339 ("garbage".data ++ ['1', '2', ':', '3', '4']) =
      (none : Option GoTime) from by decide]
    rw [show ("garbage".data ++ ['1', '2', ':', '3', '4'] : List Char) =
      "garbage12:34".data from by decide]

theorem jsonOfCommitAction_none (a : CommitActionType) (p : String) :
    jsonOfCommitAction { action := a, filePath := p, content := none, encoding := none } =
      "\x7b\"action\":".data ++ (jsonString (commitActionTypeStr a) ++
        (",\"file_path\":".data ++ (jsonString p ++
          ",\"content\":null,\"encoding\":null\x7d".data))) := by
  rw [jsonOfCommitAction]
  simp only [List.append_assoc]
  rw [show ((",\"content\":".data : List Char) ++ ("null".data ++
    (",\"encoding\":".data ++ ("null".data ++ "\x7d".data)))) =
    ",\"content\":null,\"encoding\":null\x7d".data from by decide]

theorem containsSub_null_fields (a : CommitActionType) (p : String) :
    containsSub (jsonOfCommitAction
        { action := a, filePath := p, content := none, encoding := none })
      "\"content\":null".data = true ∧
    containsSub (jsonOfCommitAction
        { action := a, filePath := p, content := none, encoding := none })
      "\"encoding\":null".data = true := by
  rw [jsonOfCommitAction_none]
  constructor <;>
    exact containsSub_append_right _ _ _ (containsSub_append_right _ _ _
      (containsSub_append_right _ _ _ (containsSub_append_right _ _ _ (by decide))))

/-- C7 (amended): each action of the marshaled commit body carries, when its
content is longer than one byte, the base64 encoding of that content together
with the `base64` encoding tag; an action whose content is at most one byte
long carries no content and no encoding values — nil pointers, serialized as
explicit JSON nulls rather than omitted fields; action type and file path are
copied through unchanged. -/
theorem commitBody_encoding_policy (l : List CommitActionOnByteSlice) (i : Nat)
    (h : i < l.length) :
    ∃ h2 : i < (createCommitBodyActions l).length,
      ((createCommitBodyActions l).get ⟨i, h2⟩).action = (l.get ⟨i, h⟩).action ∧
      ((createCommitBodyActions l).get ⟨i, h2⟩).filePath = (l.get ⟨i, h⟩).filePath ∧
      ((l.get ⟨i, h⟩).content.length > 1 →
        ((createCommitBodyActions l).get ⟨i, h2⟩).content =
          some (String.mk (base64Encode (l.get ⟨i, h⟩).content)) ∧
        ((createCommitBodyActions l).get ⟨i, h2⟩).encoding = some "base64") ∧
      ((l.get ⟨i, h⟩).content.length ≤ 1 →
        ((createCommitBodyActions l).get ⟨i, h2⟩).content = none ∧
        ((createCommitBodyActions l).get ⟨i, h2⟩).encoding = none ∧
        containsSub (jsonOfCommitAction ((createCommitBodyActions l).get ⟨i, h2⟩))
          "\"content\":null".data = true ∧
        containsSub (jsonOfCommitAction ((createCommitBodyActions l).get ⟨i, h2⟩))
          "\"encoding\":null".data = true) := by
  have h2 : i < (createCommitBodyActions l).length := by
    simpa [createCommitBodyActions] using h
  refine ⟨h2, ?_⟩
  have hget : (createCommitBodyActions l).get ⟨i, h2⟩ =
      (if (l.get ⟨i, h⟩).content.length > 1 then
        { action := (l.get ⟨i, h⟩).action, filePath := (l.get ⟨i, h⟩).filePath,
          content := some (String.mk (base64Encode (l.get ⟨i, h⟩).content)),
          encoding := some "base64" }
      else
        { action := (l.get ⟨i, h⟩).action, filePath := (l.get ⟨i, h⟩).filePath,
          content := none, encoding := none }) := by
    simp [createCommitBodyActions, List.get_map]
  by_cases hc : (l.get ⟨i, h⟩).content.length > 1
  · rw [hget, if_pos hc]
    exact ⟨rfl, rfl, fun _ => ⟨rfl, rfl⟩, fun hle => absurd hc (by omega)⟩
  · rw [hget, if_neg hc]
    exact ⟨rfl, rfl, fun hgt => absurd hgt hc,
      fun _ => ⟨rfl, rfl, (containsSub_null_fields _ _).1, (containsSub_null_fields _ _).2⟩⟩

/-- C7 (witness for the amended theorem): the policy instantiated at a
two-action list — a create action with two bytes of content and a delete
action with none. -/
theorem commitBody_encoding_policy_witness :
    ∃ h2 : 0 < (createCommitBodyActions
        [{ action := CommitActionType.create, filePath := "k", content := [104, 105] }]).length,
      ((createCommitBodyActions
        [{ action := CommitActionType.create, filePath := "k", content := [104, 105] }]).get
          ⟨0, h2⟩).content = some "aGk=" := by
  obtain ⟨h2, _, _, hbig, _⟩ := commitBody_encoding_policy
    [{ action := CommitActionType.create, filePath := "k", content := [104, 105] }] 0
    (by decide)
  refine ⟨h2, ?_⟩
  have := (hbig (by decide)).1
  rw [this]
  decide

end Vcblobstore
